import Mathlib

/-!
A shallow embedding in Lean 4 of the core pipeline of the upf-checker
repository (files `app.py` and `main.py`): the UPF score engine, the
per-source record normalizers, the fuzzy similarity matcher and the
search orchestrator, together with theorems settling the frozen claims
about the natural-language specification.

Conventions of the embedding:
* Python `str` values are modelled as Lean `String`/`List Char`.
  `str.lower` is modelled on the alphabet actually reachable in this
  program (ASCII plus the accented letters appearing in its literals).
* Python `float` arithmetic is modelled over `ℚ`.  Every numeric value
  the scoring pipeline manipulates is a half-integer scaled by small
  constants, which binary floats represent exactly, so the model is
  exact on the reachable values.
* Python machine behaviour that can raise is modelled in `Except PyErr`;
  a bare `try/except` is modelled by matching on the `Except` value.
* Loops whose termination metric is "at least one character is consumed
  per step" are written with an explicit fuel argument initialised to a
  provably sufficient bound (length of the scanned text plus one).
-/

set_option maxRecDepth 100000

namespace UpfChecker

/-- Characters Python's `\s` (and `str.strip`/`str.split()`) treat as
whitespace, restricted to the ASCII range reachable here. -/
def isPyWs (c : Char) : Bool :=
  c = ' ' || c = '\t' || c = '\n' || c = '\x0d' || c = '\x0b' || c = '\x0c'

/-- The lowering table of Python's `str.lower` on the alphabet
reachable in this program: the ASCII uppercase letters and the accented
letter `Ë` appearing in the program's literals. -/
def lowerTable : List (Char × Char) :=
  [('A', 'a'), ('B', 'b'), ('C', 'c'), ('D', 'd'), ('E', 'e'), ('F', 'f'),
   ('G', 'g'), ('H', 'h'), ('I', 'i'), ('J', 'j'), ('K', 'k'), ('L', 'l'),
   ('M', 'm'), ('N', 'n'), ('O', 'o'), ('P', 'p'), ('Q', 'q'), ('R', 'r'),
   ('S', 's'), ('T', 't'), ('U', 'u'), ('V', 'v'), ('W', 'w'), ('X', 'x'),
   ('Y', 'y'), ('Z', 'z'), ('Ë', 'ë')]

/-- One character of Python's `str.lower` on the reachable alphabet.
Every character outside the table is left unchanged, exactly as
`str.lower` leaves digits, punctuation and already-lowercase letters
unchanged. -/
def pyLowerChar (c : Char) : Char :=
  match lowerTable.find? (fun p => p.1 == c) with
  | Option.some p => p.2
  | Option.none => c

/-- Python `str.lower` on the reachable alphabet. -/
def pyLower (s : String) : String := String.mk (s.toList.map pyLowerChar)

/-- Python `str.strip()`: remove leading and trailing whitespace. -/
def pyStrip (l : List Char) : List Char :=
  ((l.dropWhile isPyWs).reverse.dropWhile isPyWs).reverse

/-- Python `s.split(',')`: split at every comma, keeping empty pieces. -/
def splitComma : List Char → List (List Char)
  | [] => [[]]
  | c :: cs =>
    if c = ',' then [] :: splitComma cs
    else
      match splitComma cs with
      | [] => [[c]]
      | h :: t => (c :: h) :: t

/-- The Python substring test `needle in hay`. -/
def strContains (hay needle : List Char) : Bool :=
  hay.tails.any fun t => needle.isPrefixOf t

/-- Accumulating scanner for `str.split()`: `acc` holds the current
word reversed. -/
def pyWordsAux : List Char → List Char → List String
  | [], acc => if acc.isEmpty then [] else [String.mk acc.reverse]
  | c :: cs, acc =>
    if isPyWs c then
      if acc.isEmpty then pyWordsAux cs []
      else String.mk acc.reverse :: pyWordsAux cs []
    else pyWordsAux cs (c :: acc)

/-- Python `s.split()` (no argument): whitespace-separated words,
empty pieces dropped. -/
def pyWords (s : String) : List String := pyWordsAux s.toList []

/-- ASCII digit, the reachable fragment of Python's regex `\d`. -/
def isDigitCh (c : Char) : Bool := decide ('0' ≤ c ∧ c ≤ '9')

/-- With `re.IGNORECASE` the character class `[a-z]` also matches the
uppercase ASCII letters. -/
def isLetterCI (c : Char) : Bool :=
  decide (('a' ≤ c ∧ c ≤ 'z') ∨ ('A' ≤ c ∧ c ≤ 'Z'))

/-- Attempted match of the compiled pattern `E\s*\d{3}[a-z]?` (flag
`re.IGNORECASE`) at the position where `c` is the current character and
`cs` the rest of the text.  On success returns the text remaining after
the (greedy) match.  `\s*` and the three `\d` are disjoint classes, so
the greedy scan needs no backtracking; the trailing `[a-z]?` is greedy
and, because of `IGNORECASE`, also consumes an uppercase letter. -/
def matchENumber (c : Char) (cs : List Char) : Option (List Char) :=
  if c = 'E' || c = 'e' then
    match cs.dropWhile isPyWs with
    | d1 :: d2 :: d3 :: rest =>
      if isDigitCh d1 && isDigitCh d2 && isDigitCh d3 then
        some (match rest with
          | [] => []
          | r :: rs => if isLetterCI r then rs else r :: rs)
      else none
    | _ => none
  else none

/-- The scan performed by `re.findall`: repeatedly try the pattern at the
current position, restarting right after each non-overlapping match, and
count the matches.  Each step consumes at least the current character, so
fuel `length + 1` (as used by `e_number_findall_count`) is sufficient. -/
def scanENumbers : ℕ → List Char → ℕ
  | 0, _ => 0
  | _, [] => 0
  | fuel + 1, c :: cs =>
    match matchENumber c cs with
    | some rest => 1 + scanENumbers fuel rest
    | none => scanENumbers fuel cs

/-- `len(e_number_pattern.findall(ingredients))` in `app.py`. -/
def e_number_findall_count (s : String) : ℕ :=
  scanENumbers (s.toList.length + 1) s.toList

/-- Python's `round` (banker's rounding: halves go to the even integer)
applied to the non-negative half-integer `h / 2`.  The only fractional
value reachable in the scorer is an exact multiple of one half, so the
embedding tracks twice the score as a natural number and rounds here:
for even `h` the value is already integral; for odd `h` the value is
`h/2 + 1/2`, which banker's rounding sends to the even neighbour. -/
def roundHalfNat (h : ℕ) : ℕ :=
  if h % 2 = 0 then h / 2
  else if (h / 2) % 2 = 0 then h / 2 else h / 2 + 1

namespace App

/-- The sentinel test of `app.py`'s `calculate_upf_score`: the input is
falsy or its lowercasing is one of the known "no ingredients" phrases. -/
def isNoIngredients (ingredients : String) : Bool :=
  ingredients = "" || pyLower ingredients = "geen ingrediënten" ||
    pyLower ingredients = "no ingredients"

/-- `[i.strip().lower() for i in ingredients.split(',') if i.strip()]`:
the comma-separated entries, stripped, non-empty ones kept, lowercased. -/
def ingredientList (ingredients : String) : List (List Char) :=
  ((splitComma ingredients.toList).filter (fun i => pyStrip i ≠ [])).map
    (fun i => (pyStrip i).map pyLowerChar)

/-- The closed vocabulary of processing markers in `app.py`. -/
def processing_keywords : List (List Char) :=
  ["gemodificeerd", "gehydrogeneerd", "geconcentreerd",
   "extract", "isolaat", "hydrolysaat", "maltodextrine",
   "glucose", "fructose", "siroop", "verdikkingsmiddel",
   "emulgator", "stabilisator", "conserveermiddel",
   "smaakversterker", "kleurstof", "aroma"].map String.toList

/-- Number of processing keywords appearing as a substring of at least
one ingredient entry (each keyword counted at most once). -/
def processingCount (entries : List (List Char)) : ℕ :=
  if entries.length > 0 then
    processing_keywords.countP (fun k => entries.any fun i => strContains i k)
  else 0

/-- `calculate_upf_score` from `app.py` (lines 54-96).  The float
accumulation `score = 3; score += e*1.5; score += p; score += n//5` only
ever produces non-negative exact multiples of one half (floats represent
those exactly), so the embedding tracks `2*score` as a natural number:
`2*score = 6 + 3*e + 2*p + 2*(n//5)` on the processed branch and `2` on
the minimal branch, then applies Python's `round`/`min`/`max` clamp. -/
def calculate_upf_score (ingredients : String) : ℤ :=
  if isNoIngredients ingredients then 1
  else
    let e_numbers : ℕ := e_number_findall_count ingredients
    let entries := ingredientList ingredients
    let total_ingredients : ℕ := entries.length
    let processing_count : ℕ := processingCount entries
    let twiceScore : ℕ :=
      if total_ingredients > 5 || e_numbers > 0 || processing_count > 0 then
        6 + e_numbers * 3 + processing_count * 2 + (total_ingredients / 5) * 2
      else 2
    ((max 1 (min 10 (roundHalfNat twiceScore)) : ℕ) : ℤ)

end App

namespace MainPy

/-- The additive markers of `main.py`'s scorer. -/
def additives : List (List Char) :=
  ["e-", "e1", "e2", "e3", "e4", "e5", "e6", "e9"].map String.toList

/-- The processed-ingredient markers of `main.py`'s scorer. -/
def processed : List (List Char) :=
  ["suiker", "zout", "vet", "olie", "zetmeel", "siroop", "bloem",
   "gemodificeerd", "gehydrogeneerd", "extract", "concentraat"].map
    String.toList

/-- The whole-food markers of `main.py`'s scorer. -/
def whole_foods : List (List Char) :=
  ["groente", "fruit", "noten", "zaden", "granen", "peulvruchten",
   "vlees", "vis", "ei", "melk"].map String.toList

/-- `calculate_upf_score` from `main.py` (lines 72-97): base 5, bumped
by additive and processed-marker counts, reduced by whole-food counts,
clamped to [1, 10].  An empty input returns the base score 5. -/
def calculate_upf_score (ingredients : String) : ℤ :=
  if ingredients = "" then 5
  else
    let low := (pyLower ingredients).toList
    let additive_count : ℕ := additives.countP (fun a => strContains low a)
    let processed_count : ℕ := processed.countP (fun p => strContains low p)
    let whole_foods_count : ℕ :=
      whole_foods.countP (fun f => strContains low f)
    let score : ℤ := 5 + (min additive_count 3 : ℕ) +
      (min (processed_count / 2) 2 : ℕ) - (min whole_foods_count 3 : ℕ)
    max 1 (min 10 score)

end MainPy

/-! ## A model of the dynamic Python values flowing through the pipeline

Raw catalog records are untyped JSON-like Python objects.  Numeric
payload fields are modelled as integers: the sources deliver minor-unit
(cent) integer amounts, and the only float arithmetic the program
performs on them is the `/ 100.0` rescaling, which the embedding keeps
in minor units (an order-preserving change of scale). -/

/-- A Python value as it can appear in a raw catalog payload. -/
inductive PyVal where
  | none
  | bool (b : Bool)
  | int (n : ℤ)
  | str (s : String)
  | list (xs : List PyVal)
  | dict (kvs : List (String × PyVal))

/-- Python exceptions distinguished by the embedding (the program only
ever catches them with bare `except`, so the constructor never matters
for control flow; it documents the raising site). -/
inductive PyErr where
  | attributeError
  | typeError
  | keyError
  | indexError
  | valueError
deriving DecidableEq

mutual

/-- Python `==` on raw values (structural equality on this fragment). -/
def pyBeq : PyVal → PyVal → Bool
  | .none, .none => true
  | .bool a, .bool b => a == b
  | .int a, .int b => a == b
  | .str a, .str b => a == b
  | .list a, .list b => pyBeqList a b
  | .dict a, .dict b => pyBeqKvs a b
  | _, _ => false

def pyBeqList : List PyVal → List PyVal → Bool
  | [], [] => true
  | x :: xs, y :: ys => pyBeq x y && pyBeqList xs ys
  | _, _ => false

def pyBeqKvs : List (String × PyVal) → List (String × PyVal) → Bool
  | [], [] => true
  | (k1, v1) :: xs, (k2, v2) :: ys => k1 == k2 && pyBeq v1 v2 && pyBeqKvs xs ys
  | _, _ => false

end

/-- Python truthiness. -/
def pyTruthy : PyVal → Bool
  | .none => false
  | .bool b => b
  | .int n => n != 0
  | .str s => s ≠ ""
  | .list xs => !xs.isEmpty
  | .dict kvs => !kvs.isEmpty

/-- Is the value a Python `dict`?  (`isinstance(x, dict)`). -/
def PyVal.isDict : PyVal → Bool
  | .dict _ => true
  | _ => false

/-- Is the value numeric for `isinstance(x, (int, float))`?  In Python,
`bool` is a subclass of `int`, so booleans count as numeric too. -/
def PyVal.isNum : PyVal → Bool
  | .int _ => true
  | .bool _ => true
  | _ => false

/-- `dict.get(key, default)` on an actual dict: total, never raises. -/
def pyDictGet (kvs : List (String × PyVal)) (k : String) (d : PyVal) : PyVal :=
  match kvs.find? (fun kv => kv.1 == k) with
  | Option.some kv => kv.2
  | Option.none => d

/-- `x.get(key, default)`: raises `AttributeError` unless `x` is a dict. -/
def pyGet (v : PyVal) (k : String) (d : PyVal) : Except PyErr PyVal :=
  match v with
  | .dict kvs => .ok (pyDictGet kvs k d)
  | _ => .error .attributeError

/-- `x[key]` with a string key: `KeyError` when missing, `TypeError`
when `x` is not subscriptable by a string. -/
def pySubscr (v : PyVal) (k : String) : Except PyErr PyVal :=
  match v with
  | .dict kvs =>
    match kvs.find? (fun kv => kv.1 == k) with
    | Option.some kv => .ok kv.2
    | Option.none => .error .keyError
  | _ => .error .typeError

/-- `len(x)`: defined for sequences and mappings, raises otherwise. -/
def pyLen : PyVal → Except PyErr ℕ
  | .str s => .ok s.length
  | .list xs => .ok xs.length
  | .dict kvs => .ok kvs.length
  | _ => .error .typeError

/-- `x[0]`: first element of a list (IndexError on empty), first
character of a string, `KeyError` on a (string-keyed) dict, `TypeError`
otherwise. -/
def pyIndex0 : PyVal → Except PyErr PyVal
  | .list (x :: _) => .ok x
  | .list [] => .error .indexError
  | .str s =>
    match s.toList with
    | c :: _ => .ok (.str (String.mk [c]))
    | [] => .error .indexError
  | .dict _ => .error .keyError
  | _ => .error .typeError

/-- `for x in v`: the iterated elements; raises on non-iterables. -/
def pyIter : PyVal → Except PyErr (List PyVal)
  | .list xs => .ok xs
  | .str s => .ok (s.toList.map fun c => .str (String.mk [c]))
  | .dict kvs => .ok (kvs.map fun kv => .str kv.1)
  | _ => .error .typeError

/-- `key in v`: mapping/sequence membership, raises on non-containers. -/
def pyContainsE (v : PyVal) (k : String) : Except PyErr Bool :=
  match v with
  | .dict kvs => .ok (kvs.any fun kv => kv.1 == k)
  | .list xs => .ok (xs.any fun x => pyBeq x (.str k))
  | .str s => .ok (strContains s.toList k.toList)
  | _ => .error .typeError

/-- A numeric value as an integer; raises `TypeError` otherwise.  Used
wherever the source performs arithmetic (`/ 100.0`) on a payload
field. -/
def pyToInt : PyVal → Except PyErr ℤ
  | .int n => .ok n
  | .bool b => .ok (if b then 1 else 0)
  | _ => .error .typeError

/-- A value on which a `str` method (`.lower()`, `.split()`, `re.sub`)
is invoked; raises unless it really is a string. -/
def pyAsStr : PyVal → Except PyErr String
  | .str s => .ok s
  | _ => .error .attributeError

/-- `str(x)` / f-string interpolation.  Container rendering is
abbreviated: no claim depends on how a list or dict prints. -/
def pyStrOf : PyVal → String
  | .none => "None"
  | .bool true => "True"
  | .bool false => "False"
  | .int n => toString n
  | .str s => s
  | .list _ => "[...]"
  | .dict _ => "dict(...)"

/-- The f-string fragment `f"{amount:.2f}"` where `amount` is the exact
two-decimal value `cents / 100`: rendered from the minor-unit integer. -/
def fmtCents2 (cents : ℤ) : String :=
  let a := cents.natAbs
  let frac := a % 100
  (if cents < 0 then "-" else "") ++ toString (a / 100) ++ "." ++
    (if frac < 10 then "0" ++ toString frac else toString frac)

/-! ## Exact fractions for the similarity scores

The similarity pipeline combines two ratios with the weights 0.7/0.3
and compares against a threshold.  The embedding computes these scores
as exact unreduced fractions (numerator/positive denominator), which
keeps every comparison kernel-computable; `Frac.toRat` interprets them
in `ℚ` for the statements of the theorems.  The Python code uses binary
doubles; on the concrete values appearing in this development all
comparisons are far from the decision boundary, so the exact model and
the double model agree. -/

structure Frac where
  num : ℤ
  den : ℤ
deriving DecidableEq

/-- Interpretation of a fraction as a rational number. -/
def Frac.toRat (x : Frac) : ℚ := (x.num : ℚ) / (x.den : ℚ)

/-- Comparison `x ≤ y` by cross-multiplication (valid for positive
denominators, the only ones constructed here). -/
def Frac.leF (x y : Frac) : Bool := decide (x.num * y.den ≤ y.num * x.den)

/-- Fraction product. -/
def Frac.mulF (x y : Frac) : Frac := ⟨x.num * y.num, x.den * y.den⟩

/-- Fraction sum. -/
def Frac.addF (x y : Frac) : Frac :=
  ⟨x.num * y.den + y.num * x.den, x.den * y.den⟩

/-! ## difflib.SequenceMatcher (no-junk fragment)

`perform_fuzzy_search` calls `difflib.SequenceMatcher(None, a, b).ratio()`.
The model below implements the documented algorithm for inputs without
junk elements: the second sequence is always shorter than difflib's
autojunk population threshold of 200 characters in every concrete input
of this development, and no explicit junk predicate is passed. -/

/-- A candidate longest matching block: start in `a`, start in `b`,
length. -/
structure SMBest where
  i : ℕ
  j : ℕ
  size : ℕ
deriving DecidableEq

/-- One inner step of `find_longest_match`: try position `j` of `b`
against character `ai` (position `i` of `a`), extending the diagonal
run ending at `j-1` recorded in the previous row `j2lenOld`.  The state
is the row being built together with the current best block; ties are
broken by the strict `>` exactly as in difflib (earliest `i`, then
earliest `j`). -/
def smStep (b : List Char) (ai : Char) (i : ℕ) (j2lenOld : ℕ → ℕ)
    (st : (ℕ → ℕ) × SMBest) (j : ℕ) : (ℕ → ℕ) × SMBest :=
  match b.get? j with
  | Option.some bj =>
    if bj = ai then
      let k := if j = 0 then 1 else j2lenOld (j - 1) + 1
      let row := fun j' => if j' = j then k else st.1 j'
      let best := if k > st.2.size then SMBest.mk (i + 1 - k) (j + 1 - k) k
                  else st.2
      (row, best)
    else st
  | Option.none => st

/-- One outer row of `find_longest_match` (one position `i` of `a`). -/
def smRow (a b : List Char) (blo bhi : ℕ) (st : (ℕ → ℕ) × SMBest)
    (i : ℕ) : (ℕ → ℕ) × SMBest :=
  match a.get? i with
  | Option.some ai =>
    (List.range' blo (bhi - blo)).foldl (smStep b ai i st.1)
      (fun _ => 0, st.2)
  | Option.none => st

/-- Leftward extension loop of `find_longest_match` (the non-junk one);
fuel `st.i` bounds the number of possible decrements. -/
def smExtLeft (a b : List Char) (alo blo : ℕ) : ℕ → SMBest → SMBest
  | 0, st => st
  | fuel + 1, st =>
    if alo < st.i ∧ blo < st.j then
      match a.get? (st.i - 1), b.get? (st.j - 1) with
      | Option.some x, Option.some y =>
        if x = y then
          smExtLeft a b alo blo fuel (SMBest.mk (st.i - 1) (st.j - 1) (st.size + 1))
        else st
      | _, _ => st
    else st

/-- Rightward extension loop of `find_longest_match`; fuel bounds the
number of possible increments. -/
def smExtRight (a b : List Char) (ahi bhi : ℕ) : ℕ → SMBest → SMBest
  | 0, st => st
  | fuel + 1, st =>
    if st.i + st.size < ahi ∧ st.j + st.size < bhi then
      match a.get? (st.i + st.size), b.get? (st.j + st.size) with
      | Option.some x, Option.some y =>
        if x = y then
          smExtRight a b ahi bhi fuel (SMBest.mk st.i st.j (st.size + 1))
        else st
      | _, _ => st
    else st

/-- `find_longest_match(alo, ahi, blo, bhi)` of difflib for junk-free
input: the dynamic-programming sweep followed by the two (non-junk)
extension loops. -/
def smFindLongest (a b : List Char) (alo ahi blo bhi : ℕ) : SMBest :=
  let swept := (List.range' alo (ahi - alo)).foldl (smRow a b blo bhi)
    (fun _ => 0, SMBest.mk alo blo 0)
  smExtRight a b ahi bhi (ahi - alo)
    (smExtLeft a b alo blo (ahi - alo) swept.2)

/-- Total size of all matching blocks (`get_matching_blocks`, summed),
computed by the divide-and-conquer recursion around the longest match.
Each recursive call shrinks the `a`-interval by at least one, so fuel
`a.length + 1` (as used by `smTotal`) is sufficient. -/
def smMatchedTotal (a b : List Char) : ℕ → ℕ → ℕ → ℕ → ℕ → ℕ
  | 0, _, _, _, _ => 0
  | fuel + 1, alo, ahi, blo, bhi =>
    let best := smFindLongest a b alo ahi blo bhi
    if best.size = 0 then 0
    else
      smMatchedTotal a b fuel alo best.i blo best.j + best.size +
        smMatchedTotal a b fuel (best.i + best.size) ahi (best.j + best.size) bhi

/-- Sum of the sizes of all matching blocks of the two sequences. -/
def smTotal (a b : List Char) : ℕ :=
  smMatchedTotal a b (a.length + 1) 0 a.length 0 b.length

/-- `SequenceMatcher.ratio()`: `2*M / T` where `M` is the total matched
size and `T` the total length (with ratio 1 for two empty sequences,
difflib's special case). -/
def seqRatio (a b : List Char) : Frac :=
  let t := a.length + b.length
  if t = 0 then ⟨1, 1⟩ else ⟨2 * (smTotal a b : ℤ), (t : ℤ)⟩

/-- Jaccard ratio of two word lists viewed as sets:
`|A ∩ B| / |A ∪ B|`, and 0 when the union is empty. -/
def jaccardWords (qw pw : List String) : Frac :=
  let inter : ℕ := qw.dedup.countP fun w => pw.contains w
  let uni : ℕ := qw.dedup.length + pw.dedup.countP fun w => !qw.contains w
  if uni = 0 then ⟨0, 1⟩ else ⟨(inter : ℤ), (uni : ℤ)⟩

/-! ## The normalized product record and the fuzzy matcher of app.py -/

/-- The standardized record built by `app.py`'s normalizers.  `price`
and the unit-price amount are kept in minor units (cents, `price_cents`)
rather than the source's `amount / 100.0` euros: the rescaling is
strictly order-preserving, so every comparison the pipeline performs on
prices is preserved exactly.  String-typed fields hold the `str()`
rendering of the raw value (the raw values are strings on every
reachable path a claim exercises). -/
structure Product where
  id : String
  name : String
  brand : String
  description : String
  price_cents : ℤ
  pricePerUnit : String
  store : String
  upfScore : ℤ
  image : String
  ingredients : String
deriving DecidableEq

/-- The searchable text of a candidate:
`f"{product_name} {product_brand}"`, both lowercased. -/
def searchTextOf (p : Product) : List Char :=
  (pyLower p.name ++ " " ++ pyLower p.brand).toList

/-- The combined relevance score of `perform_fuzzy_search`:
`SequenceMatcher ratio * 0.7 + Jaccard ratio * 0.3` against the
lowercased query `ql`. -/
def combinedScoreF (ql : String) (p : Product) : Frac :=
  let text := searchTextOf p
  let sim := seqRatio ql.toList text
  let jac := jaccardWords (pyWords ql) (pyWords (String.mk text))
  Frac.addF (Frac.mulF sim ⟨7, 10⟩) (Frac.mulF jac ⟨3, 10⟩)

/-- The default threshold 0.4 of `perform_fuzzy_search`. -/
def fuzzyThreshold : Frac := ⟨2, 5⟩

/-- `perform_fuzzy_search` from `app.py` (lines 247-297): empty query
returns the input unchanged; otherwise keep exactly the candidates whose
combined score reaches the threshold and stably sort them by descending
combined score.  (The `_similarity` key the source temporarily stores in
each dict is deleted again before returning, so the records are
unchanged.) -/
def perform_fuzzy_search (products : List Product) (query : String)
    (threshold : Frac) : List Product :=
  if query = "" then products
  else
    let ql := pyLower query
    let matched := products.filter fun p =>
      Frac.leF threshold (combinedScoreF ql p)
    matched.mergeSort fun p q =>
      Frac.leF (combinedScoreF ql q) (combinedScoreF ql p)

/-! ## The per-source normalizers of app.py -/

/-- `calculate_upf_score(ingredients if ingredients else "")` applied to
a raw value: a falsy value scores as the empty string; a truthy
non-string raises `AttributeError` inside `calculate_upf_score` (at
`ingredients.lower()`). -/
def ingredientsArg (v : PyVal) : Except PyErr String :=
  if pyTruthy v then pyAsStr v else .ok ""

/-- The robust price handling of `process_ah_product` (`app.py` lines
109-123): prefer `priceBeforeBonus` when it is a dict, fall back to
`currentPrice`; accept a nested amount dict or a bare numeric value;
default to 0. -/
def ahPriceCents (kvs : List (String × PyVal)) : Except PyErr ℤ :=
  let price_info0 := pyDictGet kvs "priceBeforeBonus" .none
  let price_info := if price_info0.isDict then price_info0
                    else pyDictGet kvs "currentPrice" .none
  if price_info.isDict then do
    let amount ← pyGet price_info "amount" (.int 0)
    pyToInt amount
  else if price_info.isNum then pyToInt price_info
  else pure 0

/-- `seq[0].get('url', '') if seq and len(seq) > 0 else ""`, the image
extraction shared verbatim by both normalizers of `app.py`. -/
def pyFirstUrl (v : PyVal) : Except PyErr String :=
  if pyTruthy v then do
    let n ← pyLen v
    if n > 0 then do
      let first ← pyIndex0 v
      let u ← pyGet first "url" (.str "")
      pure (pyStrOf u)
    else pure ""
  else pure ""

/-- The body of `process_ah_product` (the region of `app.py` lines
104-155 guarded by `try`), on a record already known to be a dict. -/
def process_ah_body (kvs : List (String × PyVal)) : Except PyErr Product := do
  let product_id := pyDictGet kvs "webshopId" (.str "")
  let name := pyDictGet kvs "title" (.str "Unknown Product")
  let brand := pyDictGet kvs "brand" (.str "Unknown Brand")
  let price_cents : ℤ ← ahPriceCents kvs
  let unit_price_obj := pyDictGet kvs "unitPriceDescription" (.str "")
  let images := pyDictGet kvs "images" (.list [])
  let image_url : String ← pyFirstUrl images
  let description := pyDictGet kvs "packageSizeText" (.str "")
  let ing0 := pyDictGet kvs "ingredientsDescription" (.str "")
  let ingredientsV := if pyTruthy ing0 then ing0
                      else pyDictGet kvs "ingredients" (.str "")
  let ingredientsS ← ingredientsArg ingredientsV
  let upf := App.calculate_upf_score ingredientsS
  pure
    { id := "ah_" ++ pyStrOf product_id
      name := pyStrOf name
      brand := pyStrOf brand
      description := pyStrOf description
      price_cents := price_cents
      pricePerUnit := pyStrOf unit_price_obj
      store := "ah"
      upfScore := upf
      image := image_url
      ingredients := if pyTruthy ingredientsV then ingredientsS
                     else "Ingrediënten niet beschikbaar" }

/-- `process_ah_product` from `app.py` (lines 98-158): non-dict records
and records whose processing raises are dropped (`None`). -/
def process_ah_product (product : PyVal) : Option Product :=
  match product with
  | .dict kvs =>
    match process_ah_body kvs with
    | .ok p => Option.some p
    | .error _ => Option.none
  | _ => Option.none

/-- State of the tag-stripping scan `re.sub('<[^<]+?>', '', html)`:
after an opening `<`, look for the lazily-first closing `>` with at
least one interior character, none of which may be `<`. -/
def findCloseTag : List Char → Bool → Option (List Char)
  | [], _ => Option.none
  | c :: cs, seen =>
    if c = '>' && seen then Option.some cs
    else if c = '<' then Option.none
    else findCloseTag cs true

/-- The scan of `re.sub('<[^<]+?>', '', html)`: non-overlapping
leftmost matches are removed, everything else is kept.  Each step
consumes at least one character, so fuel `length + 1` (as used by
`stripTags`) is sufficient. -/
def stripTagsGo : ℕ → List Char → List Char
  | 0, l => l
  | _ + 1, [] => []
  | fuel + 1, c :: cs =>
    if c = '<' then
      match findCloseTag cs false with
      | Option.some rest => stripTagsGo fuel rest
      | Option.none => c :: stripTagsGo fuel cs
    else c :: stripTagsGo fuel cs

/-- `re.sub('<[^<]+?>', '', html)` as used on the Jumbo ingredients
HTML. -/
def stripTags (l : List Char) : List Char := stripTagsGo (l.length + 1) l

/-- The section-scanning loop of `process_jumbo_product`: find the
section whose lowercased title is `'ingrediënten'`, strip the HTML of
its first content entry and stop.  Any raise aborts the whole detail
block (modelled by the `Except`). -/
def jumboSectionsLoop (ing : String) : List PyVal → Except PyErr String
  | [] => .ok ing
  | s :: rest => do
    let titleV ← pyGet s "title" (.str "")
    let title ← pyAsStr titleV
    if pyLower title = "ingrediënten" then do
      let contentV ← pyGet s "content" (.list [.dict []])
      let first ← pyIndex0 contentV
      let htmlV ← pyGet first "html" (.str "")
      let html ← pyAsStr htmlV
      .ok (String.mk (pyStrip (stripTags html.toList)))
    else jumboSectionsLoop ing rest

/-- The guarded detail-fetch block of `process_jumbo_product` (`app.py`
lines 200-222): fetch the detailed product, scan its sections for the
ingredients, fall back to `description.ingredients` when only the title
was found.  Any exception inside the block leaves the value assigned so
far (the placeholder, since every reassignment in the block is its last
possibly-raising step). -/
def jumboIngredients (fetch : PyVal → Except PyErr PyVal) (pid : PyVal) :
    PyVal :=
  let placeholder := PyVal.str "Ingrediënten niet beschikbaar"
  match fetch pid with
  | .error _ => placeholder
  | .ok dp =>
    if !pyTruthy dp then placeholder
    else
      match (do
        let d ← pyGet dp "data" (.dict [])
        let prod ← pyGet d "product" (.dict [])
        let sectionsV ← pyGet prod "sections" (.list [])
        let sections ← pyIter sectionsV
        jumboSectionsLoop "Ingrediënten niet beschikbaar" sections) with
      | .error _ => placeholder
      | .ok ing =>
        if ing = "" ∨ pyLower ing = "ingrediënten" then
          match (do
            let d ← pyGet dp "data" (.dict [])
            let prod ← pyGet d "product" (.dict [])
            let desc ← pyGet prod "description" (.dict [])
            pyGet desc "ingredients" (.str "")) with
          | .error _ => .str ing
          | .ok v => v
        else .str ing

/-- The body of `process_jumbo_product` (the region of `app.py` lines
173-242 guarded by the outer `try`), on a record already known to be a
dict and with an available connector. -/
def process_jumbo_body (fetch : PyVal → Except PyErr PyVal)
    (kvs : List (String × PyVal)) : Except PyErr Product := do
  let product_id := pyDictGet kvs "id" (.str "")
  let nameV := pyDictGet kvs "title" (.str "Unknown Product")
  let prices := pyDictGet kvs "prices" (.dict [])
  let price_obj ← pyGet prices "price" (.dict [])
  let amount ← pyGet price_obj "amount" (.int 0)
  let price_cents ← pyToInt amount
  let unit_price ← pyGet prices "unitPrice" (.dict [])
  let unitV ← pyGet unit_price "unit" (.str "")
  let upPrice ← pyGet unit_price "price" (.dict [])
  let upAmountV ← pyGet upPrice "amount" (.int 0)
  let unit_cents ← pyToInt upAmountV
  let unit_price_str :=
    if pyTruthy unitV ∧ unit_cents > 0 then
      "€" ++ fmtCents2 unit_cents ++ "/" ++ pyStrOf unitV
    else ""
  let image_info := pyDictGet kvs "imageInfo" (.dict [])
  let primary_view ← pyGet image_info "primaryView" (.list [])
  let image_url : String ← pyFirstUrl primary_view
  let description := pyDictGet kvs "quantity" (.str "")
  let ingredientsV := jumboIngredients fetch product_id
  let ingredientsS ← ingredientsArg ingredientsV
  let upf := App.calculate_upf_score ingredientsS
  let name ← pyAsStr nameV
  let brand := match pyWords name with
    | [] => "Jumbo"
    | b :: _ => b
  pure
    { id := "jumbo_" ++ pyStrOf product_id
      name := name
      brand := brand
      description := pyStrOf description
      price_cents := price_cents
      pricePerUnit := unit_price_str
      store := "jumbo"
      upfScore := upf
      image := image_url
      ingredients := if pyTruthy ingredientsV then ingredientsS
                     else "Ingrediënten niet beschikbaar" }

/-- `process_jumbo_product` from `app.py` (lines 160-245): non-dict
records, a missing connector, and records whose processing raises are
all dropped (`None`). -/
def process_jumbo_product (fetch : Option (PyVal → Except PyErr PyVal))
    (product : PyVal) : Option Product :=
  match product with
  | .dict kvs =>
    match fetch with
    | Option.none => Option.none
    | Option.some f =>
      match process_jumbo_body f kvs with
      | .ok p => Option.some p
      | .error _ => Option.none
  | _ => Option.none

/-! ## The search orchestrator of app.py

The two external catalog clients are passed in as oracles: a search
call either returns a raw payload value or raises (which also stands
for a timeout surfacing as an exception from the HTTP client).  An
absent oracle models a connector whose initialization failed. -/

/-- The Albert Heijn connector as seen by the orchestrator. -/
structure AhConn where
  search : String → ℕ → Except PyErr PyVal

/-- The Jumbo connector as seen by the orchestrator: the search call
plus the per-product detail fetch used by the normalizer. -/
structure JumboConn where
  search : String → ℕ → Except PyErr PyVal
  get_product : PyVal → Except PyErr PyVal

/-- `run_ah_search` from `app.py` (lines 334-354): missing connector or
any exception in the task yields zero results; otherwise the raw
`products` list is normalized record by record, dropping failures. -/
def run_ah_search (conn : Option AhConn) (q : String) (size : ℕ) :
    List Product :=
  match conn with
  | Option.none => []
  | Option.some c =>
    match (do
      let raw ← c.search q size
      let plistV ← pyGet raw "products" (.list [])
      if pyTruthy plistV then do
        let items ← pyIter plistV
        pure (items.filterMap process_ah_product)
      else pure ([] : List Product)) with
    | .ok l => l
    | .error _ => []

/-- `run_jumbo_search` from `app.py` (lines 356-377): as for AH, with
the raw list nested under `products.data` and the detail fetch passed
through to the normalizer. -/
def run_jumbo_search (conn : Option JumboConn) (q : String) (size : ℕ) :
    List Product :=
  match conn with
  | Option.none => []
  | Option.some c =>
    match (do
      let raw ← c.search q size
      let pv ← pyGet raw "products" (.dict [])
      let dataV ← pyGet pv "data" (.list [])
      if pyTruthy dataV then do
        let items ← pyIter dataV
        pure (items.filterMap (process_jumbo_product (Option.some c.get_product)))
      else pure ([] : List Product)) with
    | .ok l => l
    | .error _ => []

/-- `(limit // (1 if store != 'both' else 2)) + 10`, capped at 50. -/
def fetchSizePerStore (store : String) (limit : ℕ) : ℕ :=
  min ((limit / (if store ≠ "both" then 1 else 2)) + 10) 50

/-- The working list after the concurrent fan-out: AH results followed
by Jumbo results (the order `asyncio.gather` preserves). -/
def mergedResults (ah : Option AhConn) (jc : Option JumboConn)
    (query store : String) (size : ℕ) : List Product :=
  (if store = "ah" || store = "both" then run_ah_search ah query size
   else []) ++
  (if store = "jumbo" || store = "both" then run_jumbo_search jc query size
   else [])

/-- The final comparison of `app.py` line 406: ascending
`(upfScore, price)` in lexicographic tuple order (prices compared in
minor units, an order-isomorphic rescaling of the euro floats). -/
def sortKeyLe (p q : Product) : Bool :=
  decide (p.upfScore < q.upfScore ∨
    (p.upfScore = q.upfScore ∧ p.price_cents ≤ q.price_cents))

/-- The working list right before the final sort: the merged results,
filtered and reordered by the fuzzy matcher when `fuzzy` was requested
with a non-empty query. -/
def resultsBeforeSort (ah : Option AhConn) (jc : Option JumboConn)
    (query store : String) (fuzzy : Bool) (limit : ℕ) : List Product :=
  let results := mergedResults ah jc query store (fetchSizePerStore store limit)
  if fuzzy && query ≠ "" then perform_fuzzy_search results query fuzzyThreshold
  else results

/-- `search_products` from `app.py` (lines 309-412): store validation
(HTTP 400), fan-out, optional fuzzy filter, stable sort by
`(upfScore, price)`, truncation to `limit`. -/
def search_products (ah : Option AhConn) (jc : Option JumboConn)
    (query store : String) (fuzzy : Bool) (limit : ℕ) :
    Except ℕ (List Product) :=
  if store ≠ "ah" ∧ store ≠ "jumbo" ∧ store ≠ "both" then .error 400
  else
    .ok (((resultsBeforeSort ah jc query store fuzzy limit).mergeSort
      sortKeyLe).take limit)

/-- Modelled from the spec: the working list the specification's
broadened-retry step (spec §4.4 step 5) would produce — when the merged
list is below the floor of 5 or fuzzy was requested and the query has
several words, the per-source searches are re-issued with the first
word and only records with fresh ids are appended (first-seen wins).
`app.py` contains no such step; this definition exists to be compared
against the code's `resultsBeforeSort`/`search_products`. -/
def specRetryBeforeSort (ah : Option AhConn) (jc : Option JumboConn)
    (query store : String) (fuzzy : Bool) (limit : ℕ) : List Product :=
  let size := fetchSizePerStore store limit
  let working := mergedResults ah jc query store size
  let working :=
    if working.length < 5 || fuzzy then
      match pyWords query with
      | w :: _ :: _ =>
        let extra := mergedResults ah jc w store size
        working ++ extra.filter fun p =>
          !(working.any fun q => q.id == p.id)
      | _ => working
    else working
  if fuzzy && query ≠ "" then
    perform_fuzzy_search working query fuzzyThreshold
  else working

/-- Modelled from the spec: the orchestrator as the specification
describes it, i.e. `search_products` with the broadened-retry step
inserted before the fuzzy filter and the final sort. -/
def search_products_specRetry (ah : Option AhConn) (jc : Option JumboConn)
    (query store : String) (fuzzy : Bool) (limit : ℕ) :
    Except ℕ (List Product) :=
  if store ≠ "ah" ∧ store ≠ "jumbo" ∧ store ≠ "both" then .error 400
  else
    .ok (((specRetryBeforeSort ah jc query store fuzzy limit).mergeSort
      sortKeyLe).take limit)

/-! ## Concrete fixtures used by counterexamples and witnesses -/

namespace Fix

/-- A raw AH record carrying only an id and a minor-unit price. -/
def ahRaw (i : String) (cents : ℤ) : PyVal :=
  .dict [("webshopId", .str i),
         ("priceBeforeBonus", .dict [("amount", .int cents)])]

/-- The normalized product `process_ah_product` yields from `ahRaw`:
every other field takes its safe default, and the empty ingredients
score 1. -/
def ahProd (i : String) (cents : ℤ) : Product :=
  { id := "ah_" ++ i, name := "Unknown Product", brand := "Unknown Brand",
    description := "", price_cents := cents, pricePerUnit := "",
    store := "ah", upfScore := 1, image := "",
    ingredients := "Ingrediënten niet beschikbaar" }

/-- A raw Jumbo record carrying an id, a title and a nested price. -/
def jumboRawItem (i : String) (cents : ℤ) : PyVal :=
  .dict [("id", .str i), ("title", .str "Melkje"),
         ("prices", .dict [("price", .dict [("amount", .int cents)])])]

/-- The normalized product `process_jumbo_product` yields from
`jumboRawItem` when the detail fetch fails: the placeholder ingredients
text scores 1 and the brand is the first word of the title. -/
def jumboProd (i : String) (cents : ℤ) : Product :=
  { id := "jumbo_" ++ i, name := "Melkje", brand := "Melkje",
    description := "", price_cents := cents, pricePerUnit := "",
    store := "jumbo", upfScore := 1, image := "",
    ingredients := "Ingrediënten niet beschikbaar" }

/-- AH search oracle: two products for the full query `"melk brood"`,
one product with a fresh id for the broadened first word `"melk"`,
nothing otherwise. -/
def ahConnEx : AhConn :=
  ⟨fun q _ =>
    if q = "melk brood" then
      .ok (.dict [("products", .list [ahRaw "1" 100, ahRaw "2" 200])])
    else if q = "melk" then
      .ok (.dict [("products", .list [ahRaw "5" 500])])
    else .ok (.dict [("products", .list [])])⟩

/-- Jumbo search oracle: two products for the full query, nothing for
any other query; every detail fetch fails. -/
def jumboConnEx : JumboConn :=
  ⟨fun q _ =>
    if q = "melk brood" then
      .ok (.dict [("products", .dict [("data",
        .list [jumboRawItem "1" 300, jumboRawItem "2" 400])])])
    else .ok (.dict [("products", .dict [("data", .list [])])]),
   fun _ => .error .typeError⟩

/-- An always-failing search call. -/
def failSearch : String → ℕ → Except PyErr PyVal := fun _ _ => .error .typeError

end Fix

namespace MainPy

/-! ## The search endpoint of main.py

`main.py` is the earlier revision of the same program.  Its endpoint
builds pydantic `Product` objects; each supermarket branch runs under a
single `try`, so an exception while processing one record aborts that
branch but keeps the records appended so far.  Prices are kept in minor
units as in the `app.py` model.  Optional string fields hold the
rendering of the raw value (raw values are strings on every reachable
path a claim exercises). -/

/-- The pydantic `Product` model of `main.py` (lines 36-49). -/
structure MainProduct where
  id : String
  title : String
  brand : Option String
  image : Option String
  price_cents : ℤ
  unitPrice : Option (String × ℤ)
  upfScore : ℤ
  supermarket : String
  ingredients : Option String
  quantity : Option String
  categoryId : Option String
  url : Option String
deriving DecidableEq

/-- A connector of `main.py`: `search_products(query)` plus
`get_product(id)`. -/
structure MainConn where
  search : String → Except PyErr PyVal
  get : PyVal → Except PyErr PyVal

/-- An `Optional[str]` pydantic field receiving a raw value. -/
def optStrOf : PyVal → Option String
  | .none => Option.none
  | v => Option.some (pyStrOf v)

/-- `calculate_upf_score(ingredients)` of `main.py` applied to a raw
value: a falsy value returns the base score 5 before any string method
is touched; a truthy non-string raises at `ingredients.lower()`. -/
def scoreOfPy (v : PyVal) : Except PyErr ℤ :=
  if pyTruthy v then
    match v with
    | .str s => .ok (calculate_upf_score s)
    | _ => .error .attributeError
  else .ok 5

/-- The detail-scanning loop of the AH branch (`main.py` lines
147-149): every detail named `'IngrediÃ«nten'` (the literal in the
source carries this mojibake spelling) overwrites `ingredients`; there
is no `break`, so the last match wins. -/
def mainAhDetailsLoop (ing : PyVal) : List PyVal → Except PyErr PyVal
  | [] => .ok ing
  | d :: rest => do
    let nameV ← pyGet d "name" .none
    let ing' := if pyBeq nameV (.str "IngrediÃ«nten") then
        pyDictGet (match d with | .dict kvs => kvs | _ => []) "value" (.str "")
      else ing
    mainAhDetailsLoop ing' rest

/-- Processing of one raw AH record in `main.py` (lines 136-171),
inside the branch-level `try`. -/
def mainAhItem (get : PyVal → Except PyErr PyVal) (product : PyVal) :
    Except PyErr MainProduct := do
  let details : PyVal :=
    match (do
      let pid ← pySubscr product "id"
      get pid) with
    | .error _ => PyVal.none
    | .ok v => v
  let ingredientsV : PyVal ← do
    if pyTruthy details then do
      let hasDetails ← pyContainsE details "details"
      if hasDetails then do
        let inner ← pySubscr details "details"
        let listV ← pyGet inner "details" (.list [])
        let items ← pyIter listV
        mainAhDetailsLoop (.str "") items
      else pure (.str "")
    else pure (.str "")
  let upf ← scoreOfPy ingredientsV
  let priceD := pyDictGet (match product with | .dict kvs => kvs | _ => [])
    "price" (.dict [])
  let pid0 ← pySubscr product "id"
  let title ← pyGet product "title" (.str "")
  let brandD ← pyGet product "brand" (.dict [])
  let brandV ← pyGet brandD "name" .none
  let imagesV ← pyGet product "images" (.list [.dict []])
  let image : Option String ←
    if pyTruthy (pyDictGet (match product with | .dict kvs => kvs | _ => [])
        "images" (.list [])) then do
      let first ← pyIndex0 imagesV
      let u ← pyGet first "url" .none
      pure (optStrOf u)
    else pure Option.none
  let amountV ← pyGet priceD "amount" (.int 0)
  let price_cents ← pyToInt amountV
  let unitPriceV ← pyGet priceD "unitPrice" (.int 0)
  let unitPrice : Option (String × ℤ) ←
    if pyTruthy unitPriceV then do
      let unitSize ← pyGet priceD "unitSize" (.str "stuk")
      let up ← pyToInt unitPriceV
      pure (Option.some (pyStrOf unitSize, up))
    else pure Option.none
  let ingredients : Option String := optStrOf ingredientsV
  let quantityV ← pyGet product "packageSummary" .none
  let categoryIdV ← pyGet product "categoryId" (.str "")
  let urlIdV ← pyGet product "id" (.str "")
  pure
    { id := "ah-" ++ pyStrOf pid0
      title := pyStrOf title
      brand := optStrOf brandV
      image := image
      price_cents := price_cents
      unitPrice := unitPrice
      upfScore := upf
      supermarket := "ah"
      ingredients := ingredients
      quantity := optStrOf quantityV
      categoryId := Option.some (pyStrOf categoryIdV)
      url := Option.some ("https://www.ah.nl/producten/product/" ++ pyStrOf urlIdV) }

/-- The attribute-scanning loop of the Jumbo branch (`main.py` lines
191-193): last match wins, as for AH. -/
def mainJumboAttrsLoop (ing : PyVal) : List PyVal → Except PyErr PyVal
  | [] => .ok ing
  | a :: rest => do
    let codeV ← pyGet a "code" .none
    let ing' := if pyBeq codeV (.str "ingredients") then
        pyDictGet (match a with | .dict kvs => kvs | _ => []) "value" (.str "")
      else ing
    mainJumboAttrsLoop ing' rest

/-- Processing of one raw Jumbo record in `main.py` (lines 180-225),
inside the branch-level `try`. -/
def mainJumboItem (get : PyVal → Except PyErr PyVal) (product : PyVal) :
    Except PyErr MainProduct := do
  let details : PyVal :=
    match (do
      let pid ← pySubscr product "id"
      get pid) with
    | .error _ => PyVal.none
    | .ok v => v
  let ingredientsV : PyVal ← do
    if pyTruthy details then do
      let hasData ← pyContainsE details "data"
      if hasData then do
        let dataV ← pySubscr details "data"
        let listV ← pyGet dataV "attributes" (.list [])
        let items ← pyIter listV
        mainJumboAttrsLoop (.str "") items
      else pure (.str "")
    else pure (.str "")
  let upf ← scoreOfPy ingredientsV
  let hasPrices ← pyContainsE product "prices"
  let price_cents : ℤ ←
    if hasPrices then do
      let pricesV ← pySubscr product "prices"
      let hasPrice ← pyContainsE pricesV "price"
      if hasPrice then do
        let priceV ← pySubscr pricesV "price"
        let amountV ← pySubscr priceV "amount"
        pyToInt amountV
      else pure 0
    else pure 0
  let unitPrice : Option (String × ℤ) ←
    if hasPrices then do
      let pricesV ← pySubscr product "prices"
      let hasUp ← pyContainsE pricesV "unitPrice"
      if hasUp then do
        let upV ← pySubscr pricesV "unitPrice"
        let unitV ← pyGet upV "unit" (.str "stuk")
        let upPriceV ← pySubscr upV "price"
        let upAmountV ← pySubscr upPriceV "amount"
        let upc ← pyToInt upAmountV
        pure (Option.some (pyStrOf unitV, upc))
      else pure Option.none
    else pure Option.none
  let pid0 ← pySubscr product "id"
  let title ← pyGet product "title" (.str "")
  let imageInfoV := pyDictGet (match product with | .dict kvs => kvs | _ => [])
    "imageInfo" .none
  let image : Option String ←
    if pyTruthy imageInfoV then do
      let pv ← pyGet imageInfoV "primaryView" .none
      if pyTruthy pv then do
        let ii ← pyGet product "imageInfo" (.dict [])
        let pv2 ← pyGet ii "primaryView" (.list [.dict []])
        let first ← pyIndex0 pv2
        let u ← pyGet first "url" .none
        pure (optStrOf u)
      else pure Option.none
    else pure Option.none
  let ingredients : Option String := optStrOf ingredientsV
  let quantityV ← pyGet product "quantity" .none
  let urlIdV ← pyGet product "id" (.str "")
  pure
    { id := "jumbo-" ++ pyStrOf pid0
      title := pyStrOf title
      brand := Option.none
      image := image
      price_cents := price_cents
      unitPrice := unitPrice
      upfScore := upf
      supermarket := "jumbo"
      ingredients := ingredients
      quantity := optStrOf quantityV
      categoryId := Option.none
      url := Option.some ("https://www.jumbo.com/producten/" ++ pyStrOf urlIdV) }

/-- The append loop inside a branch-level `try`: an exception while
processing a record aborts the branch but keeps everything appended so
far. -/
def mainLoopAppend (f : PyVal → Except PyErr MainProduct) :
    List PyVal → List MainProduct → List MainProduct
  | [], acc => acc
  | x :: xs, acc =>
    match f x with
    | .error _ => acc
    | .ok p => mainLoopAppend f xs (acc ++ [p])

/-- The Albert Heijn branch of `main.py`'s endpoint (lines 132-173). -/
def mainAhBranch (conn : MainConn) (query : String)
    (acc : List MainProduct) : List MainProduct :=
  match (do
    let res ← conn.search query
    if pyTruthy res then do
      let hasP ← pyContainsE res "products"
      if hasP then do
        let plist ← pySubscr res "products"
        let items ← pyIter plist
        pure (mainLoopAppend (mainAhItem conn.get) items acc)
      else pure acc
    else pure acc) with
  | .ok l => l
  | .error _ => acc

/-- The Jumbo branch of `main.py`'s endpoint (lines 176-227). -/
def mainJumboBranch (conn : MainConn) (query : String)
    (acc : List MainProduct) : List MainProduct :=
  match (do
    let res ← conn.search query
    if pyTruthy res then do
      let hasP ← pyContainsE res "products"
      if hasP then do
        let pv ← pySubscr res "products"
        let hasD ← pyContainsE pv "data"
        if hasD then do
          let dataV ← pySubscr pv "data"
          let items ← pyIter dataV
          pure (mainLoopAppend (mainJumboItem conn.get) items acc)
        else pure acc
      else pure acc
    else pure acc) with
  | .ok l => l
  | .error _ => acc

/-- `search_products` from `main.py` (lines 114-232), on the path where
the connector package imported successfully.  There is no validation of
`supermarket`: an unrecognized value simply skips both branches, and the
final sort uses `upfScore` as its only key.  The endpoint always
responds 200 with the (possibly empty) product list. -/
def main_search (ah jumbo : Option MainConn) (query supermarket : String) :
    List MainProduct :=
  if query = "" then []
  else
    let products : List MainProduct := []
    let products :=
      match ah with
      | Option.some c =>
        if supermarket = "ah" || supermarket = "both" then
          mainAhBranch c query products
        else products
      | Option.none => products
    let products :=
      match jumbo with
      | Option.some c =>
        if supermarket = "jumbo" || supermarket = "both" then
          mainJumboBranch c query products
        else products
      | Option.none => products
    products.mergeSort fun a b => decide (a.upfScore ≤ b.upfScore)

end MainPy

namespace Fix

/-- A raw AH record in the `main.py` shape. -/
def mainRawAh (i : String) (cents : ℤ) : PyVal :=
  .dict [("id", .str i), ("title", .str "Melk"),
         ("price", .dict [("amount", .int cents)])]

/-- The `main.py` product built from `mainRawAh` when the detail fetch
fails: empty ingredients give the base score 5. -/
def mainProdAh (i : String) (cents : ℤ) : MainPy.MainProduct :=
  { id := "ah-" ++ i, title := "Melk", brand := Option.none,
    image := Option.none, price_cents := cents, unitPrice := Option.none,
    upfScore := 5, supermarket := "ah", ingredients := Option.some "",
    quantity := Option.none, categoryId := Option.some "",
    url := Option.some ("https://www.ah.nl/producten/product/" ++ i) }

/-- A `main.py` AH connector returning two products — equal scores,
descending prices — whose detail fetches always fail. -/
def mainAhConnEx : MainPy.MainConn :=
  ⟨fun q =>
    if q = "melk" then
      .ok (.dict [("products", .list [mainRawAh "1" 500, mainRawAh "2" 200])])
    else .ok (.dict [("products", .list [])]),
   fun _ => .error .typeError⟩

end Fix

/-! ## Helper lemmas -/

theorem digit_not_ws {c : Char} (h : isDigitCh c = true) : isPyWs c = false := by
  obtain ⟨h1, h2⟩ := of_decide_eq_true h
  simp only [isPyWs, Bool.or_eq_false_iff, decide_eq_false_iff_not]
  refine ⟨⟨⟨⟨⟨?_, ?_⟩, ?_⟩, ?_⟩, ?_⟩, ?_⟩ <;>
    · rintro rfl
      exact absurd h1 (by decide)

theorem digit_not_letter {c : Char} (h : isDigitCh c = true) :
    isLetterCI c = false := by
  obtain ⟨h1, h2⟩ := of_decide_eq_true h
  simp only [isLetterCI, decide_eq_false_iff_not]
  rintro (⟨ha, _⟩ | ⟨ha, _⟩) <;>
    exact absurd (le_trans ha h2) (by decide)

theorem digit_not_e {c : Char} (h : isDigitCh c = true) :
    (c = 'E' || c = 'e') = false := by
  obtain ⟨h1, h2⟩ := of_decide_eq_true h
  simp only [Bool.or_eq_false_iff, decide_eq_false_iff_not]
  constructor <;>
    · rintro rfl
      exact absurd h2 (by decide)

theorem pyLowerChar_digit {c : Char} (h : isDigitCh c = true) :
    pyLowerChar c = c := by
  obtain ⟨h1, h2⟩ := of_decide_eq_true h
  have hkeys : ∀ q ∈ lowerTable, 'A' ≤ q.1 := by decide
  unfold pyLowerChar
  rw [List.find?_eq_none.mpr]
  intro q hq hbeq
  have hc : q.1 = c := by simpa using hbeq
  have : ('A' : Char) ≤ '9' := le_trans (hc ▸ hkeys q hq) h2
  exact absurd this (by decide)

theorem ws_pyLowerChar (c : Char) : isPyWs (pyLowerChar c) = isPyWs c := by
  have htab : ∀ q ∈ lowerTable, isPyWs q.2 = isPyWs q.1 := by decide
  unfold pyLowerChar
  cases hfind : lowerTable.find? (fun p => p.1 == c) with
  | none => rfl
  | some q =>
    have hc : q.1 = c := by simpa using List.find?_some hfind
    rw [htab q (List.mem_of_find?_eq_some hfind), hc]

/-- A match of the additive-code pattern requires a digit in the scanned
tail. -/
theorem matchENumber_none_of_noDigit {c : Char} {cs : List Char}
    (h : ∀ x ∈ cs, isDigitCh x = false) : matchENumber c cs = Option.none := by
  unfold matchENumber
  split
  · split
    · rename_i d1 d2 d3 rest heq
      have hd1 : d1 ∈ cs := by
        have hsub := List.dropWhile_sublist (l := cs) (p := isPyWs)
        rw [heq] at hsub
        exact hsub.subset (by simp)
      rw [h d1 hd1]
      simp
    · rfl
  · rfl

theorem scanENumbers_zero_fuel (l : List Char) : scanENumbers 0 l = 0 := by
  cases l <;> rfl

theorem scanENumbers_nil (fuel : ℕ) : scanENumbers fuel [] = 0 := by
  cases fuel <;> rfl

theorem scanENumbers_cons (fuel : ℕ) (c : Char) (cs : List Char) :
    scanENumbers (fuel + 1) (c :: cs) =
      match matchENumber c cs with
      | Option.some rest => 1 + scanENumbers fuel rest
      | Option.none => scanENumbers fuel cs := rfl

/-- The findall scan finds nothing in a digit-free text. -/
theorem scanENumbers_eq_zero_of_noDigit (fuel : ℕ) :
    ∀ l : List Char, (∀ x ∈ l, isDigitCh x = false) →
      scanENumbers fuel l = 0 := by
  induction fuel with
  | zero => exact fun l _ => scanENumbers_zero_fuel l
  | succ f ih =>
    intro l h
    cases l with
    | nil => rfl
    | cons c cs =>
      rw [scanENumbers_cons,
        matchENumber_none_of_noDigit (fun x hx => h x (by simp [hx]))]
      exact ih cs (fun x hx => h x (by simp [hx]))

/-- The findall scan finds nothing in a text with no letter `E`. -/
theorem scanENumbers_eq_zero_of_noE (fuel : ℕ) :
    ∀ l : List Char, (∀ x ∈ l, (x = 'E' || x = 'e') = false) →
      scanENumbers fuel l = 0 := by
  induction fuel with
  | zero => exact fun l _ => scanENumbers_zero_fuel l
  | succ f ih =>
    intro l h
    cases l with
    | nil => rfl
    | cons c cs =>
      have hc : (c = 'E' || c = 'e') = false := h c (by simp)
      have hm : matchENumber c cs = Option.none := by
        unfold matchENumber
        rw [hc]
        simp
      rw [scanENumbers_cons, hm]
      exact ih cs (fun x hx => h x (by simp [hx]))

theorem splitComma_of_noComma :
    ∀ {l : List Char}, (',' ∉ l) → splitComma l = [l]
  | [], _ => rfl
  | c :: cs, h => by
    have hc : ¬(c = ',') := fun hcc => h (by simp [hcc])
    have ih := splitComma_of_noComma (l := cs) (fun hm => h (by simp [hm]))
    rw [splitComma, if_neg hc, ih]

/-- `strip` commutes with lowercasing (lowercasing preserves
whitespace-ness). -/
theorem pyStrip_map_lower (l : List Char) :
    pyStrip (l.map pyLowerChar) = (pyStrip l).map pyLowerChar := by
  have hfun : (isPyWs ∘ pyLowerChar) = isPyWs := funext ws_pyLowerChar
  unfold pyStrip
  rw [List.dropWhile_map, hfun, ← List.map_reverse, List.dropWhile_map, hfun,
    ← List.map_reverse]

/-- Bounds of the final clamp of the `app.py` scorer. -/
theorem app_score_range (s : String) :
    1 ≤ App.calculate_upf_score s ∧ App.calculate_upf_score s ≤ 10 := by
  unfold App.calculate_upf_score
  split
  · exact ⟨le_refl 1, by norm_num⟩
  · dsimp only
    constructor <;> omega

/-- Bounds of the final clamp of the `main.py` scorer. -/
theorem main_score_range (s : String) :
    1 ≤ MainPy.calculate_upf_score s ∧ MainPy.calculate_upf_score s ≤ 10 := by
  unfold MainPy.calculate_upf_score
  split
  · norm_num
  · dsimp only
    constructor <;> omega

/-! ## Claims C3, C4, C9 -/

/-- C3 (counterexample): the claim says "the score function" — citing
both `app.py` and `main.py` — returns 1 on the empty string and on the
sentinel phrases.  The `main.py` scorer returns 5 on all three. -/
theorem claim_C3_counterexample :
    MainPy.calculate_upf_score "" = 5 ∧
    MainPy.calculate_upf_score "no ingredients" = 5 ∧
    MainPy.calculate_upf_score "geen ingrediënten" = 5 := by
  refine ⟨by decide, by decide, by decide⟩

/-- C3 (amended): the `app.py` scorer returns 1 for the empty string
and for the sentinel phrases "no ingredients" and "geen ingrediënten"
matched case-insensitively; the `main.py` scorer instead returns its
base score 5 on those inputs. -/
theorem claim_C3 :
    (∀ s : String,
      s = "" ∨ pyLower s = "geen ingrediënten" ∨ pyLower s = "no ingredients" →
      App.calculate_upf_score s = 1) ∧
    MainPy.calculate_upf_score "" = 5 ∧
    MainPy.calculate_upf_score "no ingredients" = 5 ∧
    MainPy.calculate_upf_score "geen ingrediënten" = 5 := by
  refine ⟨fun s h => ?_, by decide, by decide, by decide⟩
  have hb : App.isNoIngredients s = true := by
    rcases h with h | h | h <;> simp [App.isNoIngredients, h]
  unfold App.calculate_upf_score
  rw [if_pos hb]

/-- C3 (witness): the amended claim evaluated at a mixed-case sentinel. -/
theorem claim_C3_witness : App.calculate_upf_score "GEEN INGREDIËNTEN" = 1 :=
  claim_C3.1 "GEEN INGREDIËNTEN" (Or.inr (Or.inl (by decide)))

/-- C4 (confirmed): both score functions return an integer in [1, 10]
on every input string. -/
theorem claim_C4 (s : String) :
    (1 ≤ App.calculate_upf_score s ∧ App.calculate_upf_score s ≤ 10) ∧
    (1 ≤ MainPy.calculate_upf_score s ∧ MainPy.calculate_upf_score s ≤ 10) :=
  ⟨app_score_range s, main_score_range s⟩

/-- C9 (counterexample): the claim says an "E" followed by four or more
consecutive digits is not counted; the compiled pattern
`E\s*\d{3}[a-z]?` has no boundary after `\d{3}`, so `findall` matches
`"E123"` inside `"E1234"` and the additive count is 1, not 0. -/
theorem claim_C9_counterexample : e_number_findall_count "E1234" = 1 := by
  decide

/-- C9 (amended): the additive count is the number of non-overlapping
left-to-right matches of: `E` (either case), optional whitespace,
three digits, and an optional trailing letter (of either case, since
`re.IGNORECASE` also applies to `[a-z]`).  In particular an `E`
followed by three or more consecutive digits is counted as one match on
the first three digits, an uppercase letter after the digits is
consumed, and fewer than three digits do not match. -/
theorem claim_C9 :
    (∀ ds : List Char, (∀ c ∈ ds, isDigitCh c = true) → 3 ≤ ds.length →
      e_number_findall_count (String.mk ('E' :: ds)) = 1) ∧
    e_number_findall_count "E 160a" = 1 ∧
    e_number_findall_count "e123" = 1 ∧
    e_number_findall_count "E100A" = 1 ∧
    e_number_findall_count "E100E200" = 1 ∧
    e_number_findall_count "E12" = 0 := by
  refine ⟨fun ds hds hlen => ?_, by decide, by decide, by decide, by decide,
    by decide⟩
  obtain ⟨d1, d2, d3, rest, rfl⟩ :
      ∃ d1 d2 d3 rest, ds = d1 :: d2 :: d3 :: rest := by
    match ds, hlen with
    | d1 :: d2 :: d3 :: rest, _ => exact ⟨d1, d2, d3, rest, rfl⟩
  have h1 := hds d1 (by simp)
  have h2 := hds d2 (by simp)
  have h3 := hds d3 (by simp)
  have hrest : ∀ c ∈ rest, isDigitCh c = true := fun c hc => hds c (by simp [hc])
  have hdrop : (d1 :: d2 :: d3 :: rest).dropWhile isPyWs =
      d1 :: d2 :: d3 :: rest :=
    List.dropWhile_cons_of_neg (by simp [digit_not_ws h1])
  show scanENumbers (('E' :: d1 :: d2 :: d3 :: rest).length + 1)
    ('E' :: d1 :: d2 :: d3 :: rest) = 1
  rw [scanENumbers_cons]
  cases rest with
  | nil =>
    have hm : matchENumber 'E' [d1, d2, d3] = Option.some [] := by
      unfold matchENumber
      rw [hdrop]
      simp [h1, h2, h3]
    rw [hm]
    show 1 + scanENumbers _ [] = 1
    rw [scanENumbers_nil]
  | cons r rs =>
    have hr : isLetterCI r = false := digit_not_letter (hrest r (by simp))
    have hm : matchENumber 'E' (d1 :: d2 :: d3 :: r :: rs) =
        Option.some (r :: rs) := by
      unfold matchENumber
      rw [hdrop]
      simp [h1, h2, h3, hr]
    rw [hm]
    show 1 + scanENumbers _ (r :: rs) = 1
    rw [scanENumbers_eq_zero_of_noE _ _
      (fun x hx => digit_not_e (hrest x hx))]

/-- C9 (witness): the general clause of the amended claim evaluated at
the four-digit run `1234`. -/
theorem claim_C9_witness : e_number_findall_count (String.mk ('E' :: ['1', '2', '3', '4'])) = 1 :=
  claim_C9.1 ['1', '2', '3', '4'] (by decide) (by decide)

/-! ## Claim C10 -/

/-- The minimal conditions of claim C10: at most five comma-separated
entries, no additive-code match, no processing-marker hit. -/
theorem App.conds_of_lower_eq (s σ : String)
    (hmap : s.toList.map pyLowerChar = σ.toList)
    (hnd : ∀ x ∈ σ.toList, isDigitCh x = false)
    (hnc : ',' ∉ σ.toList)
    (hkw : ∀ k ∈ App.processing_keywords,
      strContains (pyStrip σ.toList) k = false) :
    (App.ingredientList s).length ≤ 5 ∧ e_number_findall_count s = 0 ∧
      App.processingCount (App.ingredientList s) = 0 := by
  have hmem : ∀ x ∈ s.toList, pyLowerChar x ∈ σ.toList := by
    intro x hx
    rw [← hmap]
    exact List.mem_map_of_mem pyLowerChar hx
  have hnds : ∀ x ∈ s.toList, isDigitCh x = false := by
    intro x hx
    cases hdx : isDigitCh x with
    | false => rfl
    | true =>
      have hxσ := hmem x hx
      rw [pyLowerChar_digit hdx] at hxσ
      have hf := hnd x hxσ
      rw [hdx] at hf
      exact hf
  have hncs : ',' ∉ s.toList := by
    intro hmm
    exact hnc (by simpa using hmem ',' hmm)
  have hsplit : splitComma s.toList = [s.toList] := splitComma_of_noComma hncs
  have hIL : App.ingredientList s =
      ([s.toList].filter (fun i => pyStrip i ≠ [])).map
        (fun i => (pyStrip i).map pyLowerChar) := by
    unfold App.ingredientList
    rw [hsplit]
  refine ⟨?_, ?_, ?_⟩
  · rw [hIL]
    calc (([s.toList].filter (fun i => pyStrip i ≠ [])).map
        (fun i => (pyStrip i).map pyLowerChar)).length
        = ([s.toList].filter (fun i => pyStrip i ≠ [])).length :=
          List.length_map _ _
      _ ≤ [s.toList].length := List.length_filter_le _ _
      _ ≤ 5 := by simp
  · exact scanENumbers_eq_zero_of_noDigit _ _ hnds
  · rw [hIL]
    have hkw' : ∀ k ∈ App.processing_keywords,
        strContains (pyStrip σ.data) k = false := hkw
    by_cases hP : pyStrip s.toList ≠ []
    · have hfil : [s.toList].filter (fun i => pyStrip i ≠ []) = [s.toList] := by
        rw [List.filter_cons_of_pos (by simpa using hP), List.filter_nil]
      rw [hfil]
      have hEntry : (pyStrip s.toList).map pyLowerChar = pyStrip σ.toList := by
        rw [← pyStrip_map_lower, hmap]
      unfold App.processingCount
      simp only [List.map_cons, List.map_nil, hEntry]
      rw [if_pos (by simp)]
      rw [List.countP_eq_zero.mpr]
      intro k hk
      simp only [List.any_cons, List.any_nil, Bool.or_false]
      simp [hkw' k hk]
    · have hfil : [s.toList].filter (fun i => pyStrip i ≠ []) = [] := by
        rw [List.filter_cons_of_neg (by simpa using hP), List.filter_nil]
      rw [hfil]
      rfl

/-- The sentinel inputs of the `app.py` scorer satisfy the minimal
conditions of claim C10. -/
theorem App.conds_of_sentinel (s : String) (h : App.isNoIngredients s = true) :
    (App.ingredientList s).length ≤ 5 ∧ e_number_findall_count s = 0 ∧
      App.processingCount (App.ingredientList s) = 0 := by
  have h' : s = "" ∨ pyLower s = "geen ingrediënten" ∨
      pyLower s = "no ingredients" := by
    simpa [App.isNoIngredients, or_assoc] using h
  rcases h' with rfl | h | h
  · exact ⟨by decide, by decide, by decide⟩
  · exact App.conds_of_lower_eq s "geen ingrediënten" (congrArg String.data h)
      (by decide) (by decide) (by decide)
  · exact App.conds_of_lower_eq s "no ingredients" (congrArg String.data h)
      (by decide) (by decide) (by decide)

/-- Under the minimal conditions the `app.py` scorer returns 1. -/
theorem App.score_eq_one_of_conds (s : String)
    (hL : (App.ingredientList s).length ≤ 5)
    (hE : e_number_findall_count s = 0)
    (hP : App.processingCount (App.ingredientList s) = 0) :
    App.calculate_upf_score s = 1 := by
  unfold App.calculate_upf_score
  split
  · rfl
  · dsimp only
    have hcond : ¬((App.ingredientList s).length > 5 ∨
        e_number_findall_count s > 0 ∨
        App.processingCount (App.ingredientList s) > 0) := by
      omega
    rw [if_neg (by simpa [or_assoc] using hcond)]
    decide

/-- Outside the minimal conditions the `app.py` scorer returns a value
in [3, 10]. -/
theorem App.score_in_upper_of_not_conds (s : String)
    (hc : ¬((App.ingredientList s).length ≤ 5 ∧ e_number_findall_count s = 0 ∧
      App.processingCount (App.ingredientList s) = 0)) :
    3 ≤ App.calculate_upf_score s ∧ App.calculate_upf_score s ≤ 10 := by
  have hsent : App.isNoIngredients s = false := by
    cases hb : App.isNoIngredients s with
    | false => rfl
    | true => exact absurd (App.conds_of_sentinel s hb) hc
  unfold App.calculate_upf_score
  rw [if_neg (by simp [hsent])]
  dsimp only
  have hcond : ((App.ingredientList s).length > 5 ∨
      e_number_findall_count s > 0 ∨
      App.processingCount (App.ingredientList s) > 0) := by
    omega
  rw [if_pos (by simpa [or_assoc] using hcond)]
  have hround : 3 ≤ roundHalfNat (6 + e_number_findall_count s * 3 +
      App.processingCount (App.ingredientList s) * 2 +
      (App.ingredientList s).length / 5 * 2) := by
    unfold roundHalfNat
    split_ifs <;> omega
  constructor <;> omega

/-- C10 (confirmed): the `app.py` scorer never returns 2 — its result
is exactly 1 precisely when the text has at most 5 comma-separated
entries, zero additive-code matches and zero processing-marker hits,
and otherwise lies in [3, 10]. -/
theorem claim_C10 (s : String) :
    (App.calculate_upf_score s = 1 ∨
      (3 ≤ App.calculate_upf_score s ∧ App.calculate_upf_score s ≤ 10)) ∧
    (App.calculate_upf_score s = 1 ↔
      ((App.ingredientList s).length ≤ 5 ∧ e_number_findall_count s = 0 ∧
        App.processingCount (App.ingredientList s) = 0)) := by
  by_cases hc : (App.ingredientList s).length ≤ 5 ∧
      e_number_findall_count s = 0 ∧
      App.processingCount (App.ingredientList s) = 0
  · obtain ⟨hL, hE, hP⟩ := hc
    have h1 := App.score_eq_one_of_conds s hL hE hP
    exact ⟨Or.inl h1, ⟨fun _ => ⟨hL, hE, hP⟩, fun _ => h1⟩⟩
  · have h3 := App.score_in_upper_of_not_conds s hc
    refine ⟨Or.inr h3, ⟨fun h1 => ?_, fun hcc => absurd hcc hc⟩⟩
    omega

/-! ## Claim C2 -/

/-- Cross-multiplication comparison agrees with the rational order when
both denominators are positive. -/
theorem Frac.leF_iff {x y : Frac} (hx : 0 < x.den) (hy : 0 < y.den) :
    Frac.leF x y = true ↔ x.toRat ≤ y.toRat := by
  unfold Frac.leF Frac.toRat
  rw [decide_eq_true_iff]
  rw [div_le_div_iff₀ (by exact_mod_cast hx) (by exact_mod_cast hy)]
  constructor <;> intro h <;> exact_mod_cast h

theorem seqRatio_den_pos (a b : List Char) : 0 < (seqRatio a b).den := by
  unfold seqRatio
  dsimp only
  split
  · norm_num
  · rename_i h
    exact Int.natCast_pos.mpr (Nat.pos_of_ne_zero h)

theorem jaccardWords_den_pos (qw pw : List String) :
    0 < (jaccardWords qw pw).den := by
  unfold jaccardWords
  dsimp only
  split
  · norm_num
  · rename_i h
    exact Int.natCast_pos.mpr (Nat.pos_of_ne_zero h)

theorem combinedScoreF_den_pos (ql : String) (p : Product) :
    0 < (combinedScoreF ql p).den := by
  unfold combinedScoreF Frac.addF Frac.mulF
  dsimp only
  have h1 := seqRatio_den_pos ql.toList (searchTextOf p)
  have h2 := jaccardWords_den_pos (pyWords ql)
    (pyWords (String.mk (searchTextOf p)))
  positivity

/-- C2 (counterexample): a candidate whose searchable text contains the
query token `"melk"` verbatim but whose combined score 0.28 is below
the default threshold 0.4 is dropped by `perform_fuzzy_search` — there
is no verbatim-substring escape hatch in the code. -/
theorem claim_C2_counterexample :
    strContains
      (searchTextOf
        { id := "ah_1", name := "melkqqqqqqqqqq", brand := "wwwww",
          description := "", price_cents := 100, pricePerUnit := "",
          store := "ah", upfScore := 1, image := "", ingredients := "" })
      "melk".toList = true ∧
    (combinedScoreF (pyLower "melk")
      { id := "ah_1", name := "melkqqqqqqqqqq", brand := "wwwww",
        description := "", price_cents := 100, pricePerUnit := "",
        store := "ah", upfScore := 1, image := "", ingredients := "" }).toRat
      < (2 : ℚ) / 5 ∧
    perform_fuzzy_search
      [{ id := "ah_1", name := "melkqqqqqqqqqq", brand := "wwwww",
         description := "", price_cents := 100, pricePerUnit := "",
         store := "ah", upfScore := 1, image := "", ingredients := "" }]
      "melk" fuzzyThreshold = [] := by
  refine ⟨by decide, ?_, ?_⟩
  · have hval : combinedScoreF (pyLower "melk")
        { id := "ah_1", name := "melkqqqqqqqqqq", brand := "wwwww",
          description := "", price_cents := 100, pricePerUnit := "",
          store := "ah", upfScore := 1, image := "", ingredients := "" } =
        ⟨1680, 7200⟩ := by decide
    rw [hval]
    unfold Frac.toRat
    norm_num
  · unfold perform_fuzzy_search
    rw [if_neg (by decide)]
    dsimp only
    have hfil : List.filter
        (fun p => Frac.leF fuzzyThreshold (combinedScoreF (pyLower "melk") p))
        [{ id := "ah_1", name := "melkqqqqqqqqqq", brand := "wwwww",
           description := "", price_cents := 100, pricePerUnit := "",
           store := "ah", upfScore := 1, image := "", ingredients := "" }] =
        [] := by decide
    rw [hfil, List.mergeSort_nil]

/-- C2 (amended): for a non-empty query, `perform_fuzzy_search` with
the default threshold retains exactly the candidates whose combined
weighted similarity score reaches 0.4 — there is no escape hatch: a
candidate whose text contains a query token verbatim is still dropped
when its combined score is below the threshold. -/
theorem claim_C2 (products : List Product) (query : String) (p : Product)
    (hq : query ≠ "") :
    p ∈ perform_fuzzy_search products query fuzzyThreshold ↔
      p ∈ products ∧
        (2 : ℚ) / 5 ≤ (combinedScoreF (pyLower query) p).toRat := by
  unfold perform_fuzzy_search
  rw [if_neg hq]
  dsimp only
  rw [List.mem_mergeSort, List.mem_filter]
  have hle : Frac.leF fuzzyThreshold (combinedScoreF (pyLower query) p) = true ↔
      (2 : ℚ) / 5 ≤ (combinedScoreF (pyLower query) p).toRat := by
    rw [Frac.leF_iff (by decide) (combinedScoreF_den_pos _ _)]
    unfold Frac.toRat fuzzyThreshold
    norm_num
  rw [hle]

/-! ## Claim C8 -/

/-- Inversion of a successful monadic bind in `Except`. -/
theorem bind_ok {ε α β : Type} {x : Except ε α} {f : α → Except ε β} {b : β}
    (h : x >>= f = .ok b) : ∃ a, x = .ok a ∧ f a = .ok b := by
  cases x with
  | ok a => exact ⟨a, rfl, h⟩
  | error e =>
    simp only [Bind.bind, Except.bind] at h
    exact Except.noConfusion h

/-- Every record emitted by the AH normalizer carries the `ah` source
tag and an in-range score. -/
theorem process_ah_some {v : PyVal} {p : Product}
    (h : process_ah_product v = Option.some p) :
    p.store = "ah" ∧ 1 ≤ p.upfScore ∧ p.upfScore ≤ 10 := by
  cases v with
  | dict kvs =>
    have h' : (match process_ah_body kvs with
        | .ok q => Option.some q
        | .error _ => (Option.none : Option Product)) = Option.some p := h
    cases hb : process_ah_body kvs with
    | error e => rw [hb] at h'; exact Option.noConfusion h'
    | ok q =>
      rw [hb] at h'
      have hpq : q = p := Option.some.inj h'
      subst hpq
      unfold process_ah_body at hb
      obtain ⟨pc, hA, hb⟩ := bind_ok hb
      obtain ⟨iu, hB, hb⟩ := bind_ok hb
      obtain ⟨ings, hC, hb⟩ := bind_ok hb
      simp only [pure, Except.pure, Except.ok.injEq] at hb
      subst hb
      exact ⟨rfl, app_score_range ings⟩
  | none => exact Option.noConfusion h
  | bool b => exact Option.noConfusion h
  | int n => exact Option.noConfusion h
  | str s => exact Option.noConfusion h
  | list xs => exact Option.noConfusion h

/-- Every record emitted by the Jumbo normalizer carries the `jumbo`
source tag and an in-range score. -/
theorem process_jumbo_some {f : Option (PyVal → Except PyErr PyVal)}
    {v : PyVal} {p : Product}
    (h : process_jumbo_product f v = Option.some p) :
    p.store = "jumbo" ∧ 1 ≤ p.upfScore ∧ p.upfScore ≤ 10 := by
  cases v with
  | dict kvs =>
    cases f with
    | none => exact Option.noConfusion h
    | some g =>
      have h' : (match process_jumbo_body g kvs with
          | .ok q => Option.some q
          | .error _ => (Option.none : Option Product)) = Option.some p := h
      cases hb : process_jumbo_body g kvs with
      | error e => rw [hb] at h'; exact Option.noConfusion h'
      | ok q =>
        rw [hb] at h'
        have hpq : q = p := Option.some.inj h'
        subst hpq
        unfold process_jumbo_body at hb
        obtain ⟨price_obj, hA, hb⟩ := bind_ok hb
        obtain ⟨amount, hB, hb⟩ := bind_ok hb
        obtain ⟨pc, hC, hb⟩ := bind_ok hb
        obtain ⟨unit_price, hD, hb⟩ := bind_ok hb
        obtain ⟨unitV, hE, hb⟩ := bind_ok hb
        obtain ⟨upPrice, hF, hb⟩ := bind_ok hb
        obtain ⟨upAmountV, hG, hb⟩ := bind_ok hb
        obtain ⟨uc, hH, hb⟩ := bind_ok hb
        obtain ⟨pv, hI, hb⟩ := bind_ok hb
        obtain ⟨iu, hJ, hb⟩ := bind_ok hb
        obtain ⟨ings, hK, hb⟩ := bind_ok hb
        obtain ⟨nm, hL, hb⟩ := bind_ok hb
        simp only [pure, Except.pure, Except.ok.injEq] at hb
        subst hb
        exact ⟨rfl, app_score_range ings⟩
  | none => exact Option.noConfusion h
  | bool b => exact Option.noConfusion h
  | int n => exact Option.noConfusion h
  | str s => exact Option.noConfusion h
  | list xs => exact Option.noConfusion h

/-- C8 (confirmed): the normalizers are total functions into
`Option Product`: non-dict raw values (and a missing Jumbo connector)
are dropped as `None`; an emitted record always carries its source tag
and an in-range score; and the empty record normalizes to the
documented safe defaults. -/
theorem claim_C8 :
    (∀ v : PyVal, v.isDict = false → process_ah_product v = Option.none) ∧
    (∀ (v : PyVal) (f : Option (PyVal → Except PyErr PyVal)),
      v.isDict = false → process_jumbo_product f v = Option.none) ∧
    (∀ v : PyVal, process_jumbo_product Option.none v = Option.none) ∧
    (∀ (v : PyVal) (p : Product), process_ah_product v = Option.some p →
      p.store = "ah" ∧ 1 ≤ p.upfScore ∧ p.upfScore ≤ 10) ∧
    (∀ (v : PyVal) (f : Option (PyVal → Except PyErr PyVal)) (p : Product),
      process_jumbo_product f v = Option.some p →
      p.store = "jumbo" ∧ 1 ≤ p.upfScore ∧ p.upfScore ≤ 10) ∧
    process_ah_product (.dict []) = Option.some
      { id := "ah_", name := "Unknown Product", brand := "Unknown Brand",
        description := "", price_cents := 0, pricePerUnit := "",
        store := "ah", upfScore := 1, image := "",
        ingredients := "Ingrediënten niet beschikbaar" } := by
  refine ⟨?_, ?_, ?_, fun v p h => process_ah_some h,
    fun v f p h => process_jumbo_some h, by decide⟩
  · intro v hv
    cases v <;> first
    | rfl
    | exact absurd hv (by simp [PyVal.isDict])
  · intro v f hv
    cases v <;> first
    | rfl
    | exact absurd hv (by simp [PyVal.isDict])
  · intro v
    cases v <;> rfl

/-- C8 (witness): the non-dict clause of the claim evaluated at a bare
integer record. -/
theorem claim_C8_witness : process_ah_product (PyVal.int 3) = Option.none :=
  claim_C8.1 (PyVal.int 3) rfl

/-! ## Orchestrator helper lemmas -/

theorem sortKeyLe_trans (a b c : Product) (h1 : sortKeyLe a b)
    (h2 : sortKeyLe b c) : sortKeyLe a c := by
  unfold sortKeyLe at *
  rw [decide_eq_true_iff] at *
  omega

theorem sortKeyLe_total (a b : Product) : sortKeyLe a b || sortKeyLe b a := by
  unfold sortKeyLe
  simp only [Bool.or_eq_true, decide_eq_true_iff]
  omega

/-- The fuzzy matcher only ever returns elements of its input. -/
theorem mem_of_mem_fuzzy {products : List Product} {query : String}
    {threshold : Frac} {p : Product}
    (h : p ∈ perform_fuzzy_search products query threshold) : p ∈ products := by
  unfold perform_fuzzy_search at h
  split at h
  · exact h
  · rw [List.mem_mergeSort, List.mem_filter] at h
    exact h.1

/-- A failing AH search task contributes zero results. -/
theorem run_ah_search_fail {ahS : String → ℕ → Except PyErr PyVal}
    {q : String} {n : ℕ} {e : PyErr} (h : ahS q n = .error e) :
    run_ah_search (Option.some ⟨ahS⟩) q n = [] := by
  unfold run_ah_search
  simp [h, Bind.bind, Except.bind]

/-- A failing Jumbo search task contributes zero results. -/
theorem run_jumbo_search_fail {jS : String → ℕ → Except PyErr PyVal}
    {g : PyVal → Except PyErr PyVal} {q : String} {n : ℕ} {e : PyErr}
    (h : jS q n = .error e) :
    run_jumbo_search (Option.some ⟨jS, g⟩) q n = [] := by
  unfold run_jumbo_search
  simp [h, Bind.bind, Except.bind]

/-! ## Claim C1 -/

/-- C1 (counterexample): with both sources returning two products each
for `"melk brood"` (four products, below the floor of 5) and the AH
source returning a product with the fresh id `"ah_5"` for the first
word `"melk"`, the claim requires the broadened retry to merge that
product in; `app.py` issues no retry, so its response omits it, while
the spec-modelled orchestrator `search_products_specRetry` includes
it. -/
theorem claim_C1_counterexample :
    pyWords "melk brood" = ["melk", "brood"] ∧
    (mergedResults (Option.some Fix.ahConnEx) (Option.some Fix.jumboConnEx)
      "melk brood" "both" (fetchSizePerStore "both" 50)).length = 4 ∧
    run_ah_search (Option.some Fix.ahConnEx) "melk"
      (fetchSizePerStore "both" 50) = [Fix.ahProd "5" 500] ∧
    search_products (Option.some Fix.ahConnEx) (Option.some Fix.jumboConnEx)
      "melk brood" "both" false 50 =
      .ok [Fix.ahProd "1" 100, Fix.ahProd "2" 200, Fix.jumboProd "1" 300,
        Fix.jumboProd "2" 400] ∧
    search_products_specRetry (Option.some Fix.ahConnEx)
      (Option.some Fix.jumboConnEx) "melk brood" "both" false 50 =
      .ok [Fix.ahProd "1" 100, Fix.ahProd "2" 200, Fix.jumboProd "1" 300,
        Fix.jumboProd "2" 400, Fix.ahProd "5" 500] := by
  refine ⟨by decide, by decide, by decide, ?_, ?_⟩
  · have hpre : resultsBeforeSort (Option.some Fix.ahConnEx)
        (Option.some Fix.jumboConnEx) "melk brood" "both" false 50 =
        [Fix.ahProd "1" 100, Fix.ahProd "2" 200, Fix.jumboProd "1" 300,
          Fix.jumboProd "2" 400] := by decide
    unfold search_products
    rw [if_neg (by decide), hpre, List.mergeSort_of_sorted (by decide)]
    rfl
  · have hpre : specRetryBeforeSort (Option.some Fix.ahConnEx)
        (Option.some Fix.jumboConnEx) "melk brood" "both" false 50 =
        [Fix.ahProd "1" 100, Fix.ahProd "2" 200, Fix.jumboProd "1" 300,
          Fix.jumboProd "2" 400, Fix.ahProd "5" 500] := by decide
    unfold search_products_specRetry
    rw [if_neg (by decide), hpre, List.mergeSort_of_sorted (by decide)]
    rfl

/-- C1 (amended): `app.py` performs no broadened retry at all — every
product of a successful response comes from the single merged result of
the per-source searches issued once with the full query; no first-word
re-query is ever issued or merged. -/
theorem claim_C1 (ah : Option AhConn) (jc : Option JumboConn)
    (query store : String) (fuzzy : Bool) (limit : ℕ) (l : List Product)
    (h : search_products ah jc query store fuzzy limit = .ok l) :
    ∀ p ∈ l, p ∈ mergedResults ah jc query store (fetchSizePerStore store limit) := by
  unfold search_products at h
  split at h
  · exact Except.noConfusion h
  · have hl : l = ((resultsBeforeSort ah jc query store fuzzy limit).mergeSort
        sortKeyLe).take limit := (Except.ok.inj h).symm
    subst hl
    intro p hp
    have hp1 : p ∈ (resultsBeforeSort ah jc query store fuzzy limit).mergeSort
        sortKeyLe := List.take_subset _ _ hp
    rw [List.mem_mergeSort] at hp1
    unfold resultsBeforeSort at hp1
    split at hp1
    · exact mem_of_mem_fuzzy hp1
    · exact hp1

/-- C1 (witness): the amended claim evaluated on a concrete successful
search. -/
theorem claim_C1_witness :
    Fix.ahProd "5" 500 ∈ mergedResults (Option.some Fix.ahConnEx)
      (Option.some Fix.jumboConnEx) "melk" "ah" (fetchSizePerStore "ah" 50) := by
  have h : search_products (Option.some Fix.ahConnEx)
      (Option.some Fix.jumboConnEx) "melk" "ah" false 50 =
      .ok [Fix.ahProd "5" 500] := by
    have hpre : resultsBeforeSort (Option.some Fix.ahConnEx)
        (Option.some Fix.jumboConnEx) "melk" "ah" false 50 =
        [Fix.ahProd "5" 500] := by decide
    unfold search_products
    rw [if_neg (by decide), hpre, List.mergeSort_of_sorted (by decide)]
    rfl
  exact claim_C1 (Option.some Fix.ahConnEx) (Option.some Fix.jumboConnEx)
    "melk" "ah" false 50 [Fix.ahProd "5" 500] h (Fix.ahProd "5" 500)
    (by simp)

/-! ## Claim C5 -/

/-- C5 (counterexample): the claim also cites `main.py`, whose final
sort uses `upfScore` as its only key and has no `limit` at all: two
products with equal scores keep their merge order even though their
prices are descending, so the returned list is not secondarily sorted
by ascending price. -/
theorem claim_C5_counterexample :
    MainPy.main_search (Option.some Fix.mainAhConnEx) Option.none
      "melk" "ah" = [Fix.mainProdAh "1" 500, Fix.mainProdAh "2" 200] ∧
    (Fix.mainProdAh "1" 500).upfScore = (Fix.mainProdAh "2" 200).upfScore ∧
    (Fix.mainProdAh "2" 200).price_cents <
      (Fix.mainProdAh "1" 500).price_cents := by
  refine ⟨?_, by decide, by decide⟩
  have hbr : MainPy.mainAhBranch Fix.mainAhConnEx "melk" [] =
      [Fix.mainProdAh "1" 500, Fix.mainProdAh "2" 200] := by decide
  show (MainPy.mainAhBranch Fix.mainAhConnEx "melk" []).mergeSort
      (fun a b => decide (a.upfScore ≤ b.upfScore)) =
    [Fix.mainProdAh "1" 500, Fix.mainProdAh "2" 200]
  rw [hbr, List.mergeSort_of_sorted (by decide)]

/-- C5 (amended, for `app.py`): every successful response is the
`limit`-truncation of a list sorted by ascending `(upfScore, price)`
(lexicographically, prices in minor units), and that sort is stable
with respect to the list entering it (the merge order, or the fuzzy
order when fuzzy was requested): filtering by any sort key yields the
same subsequence before and after sorting.  `main.py`'s revision sorts
by score only and never truncates. -/
theorem claim_C5 (ah : Option AhConn) (jc : Option JumboConn)
    (query store : String) (fuzzy : Bool) (limit : ℕ) (l : List Product)
    (h : search_products ah jc query store fuzzy limit = .ok l) :
    ∃ sorted : List Product,
      l = sorted.take limit ∧
      sorted.Pairwise (fun p q => sortKeyLe p q = true) ∧
      l.length ≤ limit ∧
      ∀ k : ℤ × ℤ,
        sorted.filter (fun p => decide ((p.upfScore, p.price_cents) = k)) =
          (resultsBeforeSort ah jc query store fuzzy limit).filter
            (fun p => decide ((p.upfScore, p.price_cents) = k)) := by
  unfold search_products at h
  split at h
  · exact Except.noConfusion h
  · have hl : l = ((resultsBeforeSort ah jc query store fuzzy limit).mergeSort
        sortKeyLe).take limit := (Except.ok.inj h).symm
    subst hl
    refine ⟨(resultsBeforeSort ah jc query store fuzzy limit).mergeSort
      sortKeyLe, rfl, ?_, ?_, ?_⟩
    · exact List.sorted_mergeSort sortKeyLe_trans sortKeyLe_total _
    · rw [List.length_take]
      omega
    · intro k
      set pre := resultsBeforeSort ah jc query store fuzzy limit with hpre
      set Pk : Product → Bool :=
        fun p => decide ((p.upfScore, p.price_cents) = k) with hPk
      have hkeys : ∀ a, Pk a = true → (a.upfScore, a.price_cents) = k :=
        fun a ha => by simpa [hPk] using ha
      have hc : (pre.filter Pk).Pairwise (fun p q => sortKeyLe p q = true) := by
        apply List.pairwise_of_forall_mem_list
        intro a ha b hb
        have h1 := hkeys a (List.mem_filter.mp ha).2
        have h2 := hkeys b (List.mem_filter.mp hb).2
        unfold sortKeyLe
        rw [decide_eq_true_iff]
        rw [Prod.ext_iff] at h1 h2
        right
        exact ⟨h1.1.trans h2.1.symm, le_of_eq (h1.2.trans h2.2.symm)⟩
      have h1 : List.Sublist (pre.filter Pk) (pre.mergeSort sortKeyLe) :=
        List.sublist_mergeSort sortKeyLe_trans sortKeyLe_total hc
          (List.filter_sublist pre)
      have h2 : List.Perm ((pre.mergeSort sortKeyLe).filter Pk)
          (pre.filter Pk) :=
        (List.mergeSort_perm pre sortKeyLe).filter Pk
      have h3 : List.Sublist (pre.filter Pk)
          ((pre.mergeSort sortKeyLe).filter Pk) := by
        have h4 := h1.filter Pk
        rwa [List.filter_eq_self.mpr
          (fun a ha => (List.mem_filter.mp ha).2)] at h4
      exact (h3.eq_of_length h2.length_eq.symm).symm

/-- C5 (witness): the amended claim evaluated on a concrete successful
search. -/
theorem claim_C5_witness :
    ∃ sorted : List Product,
      [Fix.ahProd "5" 500] = sorted.take 50 ∧
      sorted.Pairwise (fun p q => sortKeyLe p q = true) ∧
      ([Fix.ahProd "5" 500] : List Product).length ≤ 50 ∧
      ∀ k : ℤ × ℤ,
        sorted.filter (fun p => decide ((p.upfScore, p.price_cents) = k)) =
          (resultsBeforeSort (Option.some Fix.ahConnEx)
            (Option.some Fix.jumboConnEx) "melk" "ah" false 50).filter
            (fun p => decide ((p.upfScore, p.price_cents) = k)) := by
  apply claim_C5 (Option.some Fix.ahConnEx) (Option.some Fix.jumboConnEx)
    "melk" "ah" false 50
  have hpre : resultsBeforeSort (Option.some Fix.ahConnEx)
      (Option.some Fix.jumboConnEx) "melk" "ah" false 50 =
      [Fix.ahProd "5" 500] := by decide
  unfold search_products
  rw [if_neg (by decide), hpre, List.mergeSort_of_sorted (by decide)]
  rfl

/-! ## Claim C6 -/

/-- C6 (confirmed): if one source's search task raises (a timeout
surfaces as an exception from the client) while the other succeeds, the
response is still a success consisting of the successful source's
products only — in either direction: a failing AH task leaves exactly
the Jumbo products, a failing Jumbo task leaves exactly the AH
products; and if both raise, the response is a success with an empty
list. -/
theorem claim_C6 (ahS jS : String → ℕ → Except PyErr PyVal)
    (g : PyVal → Except PyErr PyVal) (q : String) (limit : ℕ) :
    ((∀ s n, ∃ e, ahS s n = .error e) →
      ∀ jc : JumboConn,
        search_products (Option.some ⟨ahS⟩) (Option.some jc) q "both" false
          limit =
        .ok (((run_jumbo_search (Option.some jc) q
          (fetchSizePerStore "both" limit)).mergeSort sortKeyLe).take limit)) ∧
    ((∀ s n, ∃ e, jS s n = .error e) →
      ∀ ac : AhConn,
        search_products (Option.some ac) (Option.some ⟨jS, g⟩) q "both" false
          limit =
        .ok (((run_ah_search (Option.some ac) q
          (fetchSizePerStore "both" limit)).mergeSort sortKeyLe).take limit)) ∧
    ((∀ s n, ∃ e, ahS s n = .error e) → (∀ s n, ∃ e, jS s n = .error e) →
      search_products (Option.some ⟨ahS⟩) (Option.some ⟨jS, g⟩) q "both"
        false limit = .ok []) := by
  refine ⟨?_, ?_, ?_⟩
  · intro hA jc
    obtain ⟨e, he⟩ := hA q (fetchSizePerStore "both" limit)
    unfold search_products
    rw [if_neg (by decide)]
    unfold resultsBeforeSort
    rw [if_neg (by simp)]
    unfold mergedResults
    rw [if_pos (by decide), if_pos (by decide), run_ah_search_fail he]
    rfl
  · intro hJ ac
    obtain ⟨e, he⟩ := hJ q (fetchSizePerStore "both" limit)
    unfold search_products
    rw [if_neg (by decide)]
    unfold resultsBeforeSort
    rw [if_neg (by simp)]
    unfold mergedResults
    rw [if_pos (by decide), if_pos (by decide), run_jumbo_search_fail he,
      List.append_nil]
  · intro hA hJ
    obtain ⟨e1, he1⟩ := hA q (fetchSizePerStore "both" limit)
    obtain ⟨e2, he2⟩ := hJ q (fetchSizePerStore "both" limit)
    unfold search_products
    rw [if_neg (by decide)]
    unfold resultsBeforeSort
    rw [if_neg (by simp)]
    unfold mergedResults
    rw [if_pos (by decide), if_pos (by decide), run_ah_search_fail he1,
      run_jumbo_search_fail he2]
    simp

/-- C6 (witness): the claim evaluated in all three directions — a
failing AH oracle with the concrete Jumbo fixture, a failing Jumbo
oracle with the concrete AH fixture, and both oracles failing. -/
theorem claim_C6_witness :
    (search_products (Option.some ⟨Fix.failSearch⟩)
      (Option.some Fix.jumboConnEx) "melk brood" "both" false 50 =
      .ok (((run_jumbo_search (Option.some Fix.jumboConnEx) "melk brood"
        (fetchSizePerStore "both" 50)).mergeSort sortKeyLe).take 50)) ∧
    (search_products (Option.some Fix.ahConnEx)
      (Option.some ⟨Fix.failSearch, Fix.jumboConnEx.get_product⟩)
      "melk brood" "both" false 50 =
      .ok (((run_ah_search (Option.some Fix.ahConnEx) "melk brood"
        (fetchSizePerStore "both" 50)).mergeSort sortKeyLe).take 50)) ∧
    (search_products (Option.some ⟨Fix.failSearch⟩)
      (Option.some ⟨Fix.failSearch, Fix.jumboConnEx.get_product⟩)
      "melk brood" "both" false 50 = .ok []) :=
  ⟨(claim_C6 Fix.failSearch Fix.failSearch Fix.jumboConnEx.get_product
      "melk brood" 50).1 (fun _ _ => ⟨.typeError, rfl⟩) Fix.jumboConnEx,
   (claim_C6 Fix.failSearch Fix.failSearch Fix.jumboConnEx.get_product
      "melk brood" 50).2.1 (fun _ _ => ⟨.typeError, rfl⟩) Fix.ahConnEx,
   (claim_C6 Fix.failSearch Fix.failSearch Fix.jumboConnEx.get_product
      "melk brood" 50).2.2 (fun _ _ => ⟨.typeError, rfl⟩)
      (fun _ _ => ⟨.typeError, rfl⟩)⟩

/-! ## Claim C7 -/

/-- C7 (counterexample): `main.py`'s endpoint — also cited by the
claim — performs no validation of the `supermarket` parameter.  The
same connector that returns two products for `supermarket="ah"` is
silently skipped for the unrecognized value `"aldi"`: the endpoint
returns a 200 success with an empty products list instead of a 4xx
validation error (its result type has no rejection path at all). -/
theorem claim_C7_counterexample :
    MainPy.main_search (Option.some Fix.mainAhConnEx) Option.none
      "melk" "ah" = [Fix.mainProdAh "1" 500, Fix.mainProdAh "2" 200] ∧
    MainPy.main_search (Option.some Fix.mainAhConnEx) Option.none
      "melk" "aldi" = [] := by
  constructor
  · have hbr : MainPy.mainAhBranch Fix.mainAhConnEx "melk" [] =
        [Fix.mainProdAh "1" 500, Fix.mainProdAh "2" 200] := by decide
    show (MainPy.mainAhBranch Fix.mainAhConnEx "melk" []).mergeSort
        (fun a b => decide (a.upfScore ≤ b.upfScore)) =
      [Fix.mainProdAh "1" 500, Fix.mainProdAh "2" 200]
    rw [hbr, List.mergeSort_of_sorted (by decide)]
  · show ([] : List MainPy.MainProduct).mergeSort
        (fun a b => decide (a.upfScore ≤ b.upfScore)) = []
    exact List.mergeSort_nil

/-- C7 (amended): `app.py`'s endpoint rejects an unrecognized `store`
value with HTTP 400 before any search oracle is consulted (the result
is the same error for every pair of oracles); `main.py`'s revision has
no such validation and answers an unrecognized `supermarket` with a 200
success carrying an empty list. -/
theorem claim_C7 :
    (∀ (ah : Option AhConn) (jc : Option JumboConn) (q store : String)
       (fuzzy : Bool) (limit : ℕ),
      store ≠ "ah" → store ≠ "jumbo" → store ≠ "both" →
      search_products ah jc q store fuzzy limit = .error 400) ∧
    MainPy.main_search (Option.some Fix.mainAhConnEx) Option.none
      "melk" "aldi" = [] := by
  constructor
  · intro ah jc q store fuzzy limit h1 h2 h3
    unfold search_products
    rw [if_pos ⟨h1, h2, h3⟩]
  · show ([] : List MainPy.MainProduct).mergeSort
        (fun a b => decide (a.upfScore ≤ b.upfScore)) = []
    exact List.mergeSort_nil

/-- C7 (witness): the validation clause of the amended claim evaluated
at the unrecognized store `"winkel"`. -/
theorem claim_C7_witness :
    search_products (Option.some Fix.ahConnEx) (Option.some Fix.jumboConnEx)
      "melk" "winkel" false 50 = .error 400 :=
  claim_C7.1 (Option.some Fix.ahConnEx) (Option.some Fix.jumboConnEx)
    "melk" "winkel" false 50 (by decide) (by decide) (by decide)

/-- C2 (witness): the amended claim evaluated on a retained candidate. -/
theorem claim_C2_witness :
    ({ id := "ah_2", name := "melk", brand := "", description := "",
       price_cents := 100, pricePerUnit := "", store := "ah",
       upfScore := 1, image := "", ingredients := "" } : Product) ∈
      perform_fuzzy_search
        [{ id := "ah_2", name := "melk", brand := "", description := "",
           price_cents := 100, pricePerUnit := "", store := "ah",
           upfScore := 1, image := "", ingredients := "" }]
        "melk" fuzzyThreshold := by
  apply (claim_C2 _ "melk" _ (by decide)).mpr
  refine ⟨by decide, ?_⟩
  have hval : combinedScoreF (pyLower "melk")
      { id := "ah_2", name := "melk", brand := "", description := "",
        price_cents := 100, pricePerUnit := "", store := "ah",
        upfScore := 1, image := "", ingredients := "" } =
      ⟨830, 900⟩ := by decide
  rw [hval]
  unfold Frac.toRat
  norm_num

end UpfChecker
